import Mathlib

/-!
Verification development for the `plmat` model-materialization pipeline.

The Rust sources are shallowly embedded here:
* `src/common/types.rs`   — `GeoPoint`, coordinate type aliases,
* `src/model/x3dgeospatial.rs` — the uniform latitude/longitude grid generator,
* `src/model/obj.rs`      — the pole-collapsing, seam-duplicating generator,
* `src/common/color.rs`   — color-table build, interpolated lookup, quantizer,
* `src/input/dem/arcsec3.rs` — the 3-arc-second DEM tile source,
* `src/input/types.rs`    — tile-id enumeration,
* `src/model/types.rs`    — tile dispatch and the sampling pass.

Machine floating-point (`f64`/`f32`) coordinates and colors are embedded as `ℚ`;
machine integers as `ℕ`/`ℤ`.  Maps (`BTreeMap`/`HashMap`) keyed by densely
assigned indices are embedded as lists (key = position) or as
`ℕ → Option _` functions built from pointwise updates.
-/

namespace Plmat

/-- `GeoPoint` from `src/common/types.rs`: longitude and latitude in degrees. -/
structure GeoPoint where
  lon : ℚ
  lat : ℚ
deriving DecidableEq, Repr

/-- One row of points of the uniform grid; helper for the nested loop of
`X3DGeospatial::create_modelpoints` (row `j` appended after rows `0..j-1`). -/
def gridList (f : ℕ → ℕ → GeoPoint) : ℕ → ℕ → List GeoPoint
  | 0, _ => []
  | m + 1, n => gridList f m n ++ (List.range n).map (f m)

/-- `X3DGeospatial::make_valid_model_size` (src/model/x3dgeospatial.rs):
default 4, clamp below 4 up to 4. -/
def x3dMakeValidModelSize (model_size : Option ℕ) : ℕ :=
  let ms := model_size.getD 4
  if ms < 4 then 4 else ms

/-- `X3DGeospatial::define_spacing`: 180 / modelSize degrees. -/
def x3dDefineSpacing (model_size : ℕ) : ℚ :=
  180 / (model_size : ℚ)

/-- `X3DGeospatial::create_modelpoints` (src/model/x3dgeospatial.rs lines 43-60):
for `j in 0..=model_size`, `i in 0..=2*model_size` insert one point at key
`count` (embedded: list position), with both the last longitude column and the
last latitude row wrapped onto the first; the element list is empty. -/
def x3dCreateModelpoints (model_size : ℕ) (spacing : ℚ) :
    List GeoPoint × List (ℕ × ℕ × ℕ) :=
  let model_size2 := 2 * model_size
  (gridList
    (fun j i =>
      { lon := -180 + spacing * ((if i = model_size2 then 0 else i : ℕ) : ℚ)
        lat := -90 + spacing * ((if j = model_size then 0 else j : ℕ) : ℚ) })
    (model_size + 1) (model_size2 + 1),
   [])

theorem gridList_length (f : ℕ → ℕ → GeoPoint) (m n : ℕ) :
    (gridList f m n).length = m * n := by
  induction m with
  | zero => simp [gridList]
  | succ m ih =>
      simp [gridList, ih, Nat.succ_mul]

theorem gridList_getElem (f : ℕ → ℕ → GeoPoint) (m n i j : ℕ)
    (hi : i < n) (hj : j < m) :
    (gridList f m n)[j * n + i]? = some (f j i) := by
  induction m with
  | zero => omega
  | succ m ih =>
      have hstep : gridList f (m + 1) n = gridList f m n ++ (List.range n).map (f m) := rfl
      rcases Nat.lt_succ_iff_lt_or_eq.mp hj with hj' | hj'
      · have hlen : j * n + i < (gridList f m n).length := by
          rw [gridList_length]
          calc j * n + i < j * n + n := by omega
            _ = (j + 1) * n := by ring
            _ ≤ m * n := Nat.mul_le_mul_right n hj'
        rw [hstep, List.getElem?_append_left hlen]
        exact ih hj'
      · subst hj'
        have hlen : (gridList f j n).length ≤ j * n + i := by
          rw [gridList_length]; exact Nat.le_add_right _ _
        rw [hstep, List.getElem?_append_right hlen]
        have hidx : j * n + i - (gridList f j n).length = i := by
          rw [gridList_length]; omega
        rw [hidx, List.getElem?_map, List.getElem?_range hi]
        rfl

/-- C8: for every valid modelSize (any requested size, normalized by
`X3DGeospatial::make_valid_model_size`), the uniform-grid generator produces
exactly `(2*modelSize+1)*(modelSize+1)` lattice points, indexed densely from 0
(list position = key), and an empty triangle list. -/
theorem x3d_uniform_point_count (model_size_opt : Option ℕ) (spacing : ℚ) :
    ((x3dCreateModelpoints (x3dMakeValidModelSize model_size_opt) spacing).1.length
      = (2 * x3dMakeValidModelSize model_size_opt + 1) * (x3dMakeValidModelSize model_size_opt + 1)) ∧
    (x3dCreateModelpoints (x3dMakeValidModelSize model_size_opt) spacing).2 = [] := by
  constructor
  · show (gridList _ _ _).length = _
    rw [gridList_length]
    ring
  · rfl

/-- C2 (amended): the uniform-grid point at `(i, j)` (key `j*(2*ms+1)+i`) has
longitude `-180 + spacing*i`, wrapped to `-180` at the last column
`i = 2*ms`, and latitude `-90 + spacing*j`, wrapped to `-90` at the last
band `j = ms` (the last latitude band wraps onto the first, exactly like the
last longitude column). -/
theorem x3d_point_formula (ms : ℕ) (spacing : ℚ) (i j : ℕ)
    (hi : i ≤ 2 * ms) (hj : j ≤ ms) :
    (x3dCreateModelpoints ms spacing).1[j * (2 * ms + 1) + i]? =
      some { lon := if i = 2 * ms then -180 else -180 + spacing * (i : ℚ)
             lat := if j = ms then -90 else -90 + spacing * (j : ℚ) } := by
  have h := gridList_getElem
    (fun j i =>
      { lon := -180 + spacing * ((if i = 2 * ms then 0 else i : ℕ) : ℚ)
        lat := -90 + spacing * ((if j = ms then 0 else j : ℕ) : ℚ) })
    (ms + 1) (2 * ms + 1) i j (by omega) (by omega)
  show (gridList _ _ _)[j * (2 * ms + 1) + i]? = _
  rw [h]
  congr 1
  by_cases hie : i = 2 * ms <;> by_cases hje : j = ms <;>
    simp [hie, hje]

/-- C2 counterexample: with `modelSize = 4` and `spacing = 45`, the point at
`(i, j) = (0, 4)` (the last latitude band, key 36) has latitude `-90`, not
`-90 + spacing * 4 = 90` as the claim states for every `j` up to
`j = modelSize`. -/
theorem x3d_lat_wrap_cex :
    (x3dCreateModelpoints 4 45).1[4 * (2 * 4 + 1) + 0]? =
      some { lon := -180, lat := -90 } ∧
    ({ lon := -180, lat := -90 } : GeoPoint).lat ≠ -90 + 45 * (4 : ℚ) := by
  constructor
  · have h := gridList_getElem
      (fun j i =>
        { lon := -180 + 45 * ((if i = 2 * 4 then 0 else i : ℕ) : ℚ)
          lat := -90 + 45 * ((if j = 4 then 0 else j : ℕ) : ℚ) })
      (4 + 1) (2 * 4 + 1) 0 4 (by omega) (by omega)
    show (gridList _ _ _)[4 * (2 * 4 + 1) + 0]? = _
    rw [h]
    norm_num
  · show (-90 : ℚ) ≠ -90 + 45 * 4
    norm_num

/-- Witness for the amended C2 theorem at `ms = 4`, `spacing = 45`,
`(i, j) = (1, 1)`. -/
theorem x3d_point_formula_witness :
    (x3dCreateModelpoints 4 45).1[1 * (2 * 4 + 1) + 1]? =
      some { lon := if 1 = 2 * 4 then -180 else -180 + 45 * ((1 : ℕ) : ℚ)
             lat := if 1 = 4 then -90 else -90 + 45 * ((1 : ℕ) : ℚ) } :=
  x3d_point_formula 4 45 1 1 (by omega) (by omega)

/-- State of `Obj::create_modelpoints` point generation (src/model/obj.rs):
`geopoints` is the `GeoPoints` map with key = insertion index (`point_index_r`,
always the current length), `texture_points` is the `PointsMapping` with key =
insertion index (`point_index_t`) and value the mapped lattice index. -/
structure ObjPointsState where
  geopoints : List GeoPoint
  texture_points : List ℕ
deriving DecidableEq, Repr

/-- `Obj::make_valid_model_size` (src/model/obj.rs lines 42-53): default 16,
clamp below 2 up to 2, decrement an odd size to the nearest even value. -/
def objMakeValidModelSize (model_size : Option ℕ) : ℕ :=
  let ms := model_size.getD 16
  if ms < 2 then 2
  else if 2 * (ms / 2) = ms then ms else ms - 1

/-- `Obj::define_spacing`: 180 / modelSize degrees. -/
def objDefineSpacing (model_size : ℕ) : ℚ :=
  180 / (model_size : ℚ)

/-- One iteration of the `for j in 1..gnn` ring loop of
`Obj::create_modelpoints` (north/south interleaved ring `j`). -/
def objRing (j_spacing : ℚ) (gnn : ℕ) (st : ObjPointsState) (j : ℕ) : ObjPointsState :=
  let start_point_index_n := st.geopoints.length
  let i_len := 4 * (gnn - j)
  let i_spacing : ℚ := 360 / (i_len : ℚ)
  { geopoints := st.geopoints ++ (List.range i_len).flatMap (fun i : ℕ =>
      [ { lon := -180 + i_spacing * (i : ℚ), lat := j_spacing * (j : ℚ) },
        { lon := -180 + i_spacing * (i : ℚ), lat := -(j_spacing * (j : ℚ)) } ])
    texture_points := st.texture_points
      ++ (List.range i_len).flatMap (fun i =>
          [start_point_index_n + 2 * i, start_point_index_n + 2 * i + 1])
      ++ [start_point_index_n, start_point_index_n + 1] }

/-- Triangle-generation state of `Obj::create_modelpoints`: the mutable index
counters and the accumulated `elements` vector. -/
structure ObjTriState where
  index_low : ℕ
  index_hi_n : ℕ
  index_hi_s : ℕ
  index_low_n : ℕ
  index_low_s : ℕ
  elements : List (ℕ × ℕ × ℕ)
deriving DecidableEq, Repr

/-- One iteration of the equator-triangle loop (src/model/obj.rs lines 134-146). -/
def objEquatorTriStep (gnn : ℕ) (s : ObjTriState) (i : ℕ) : ObjTriState :=
  let index_hi_n := s.index_hi_n + (if i % gnn = 0 then 0 else 2)
  let index_hi_s := s.index_hi_s + (if i % gnn = 0 then 0 else 2)
  let es := s.elements ++ [(s.index_low, s.index_low + 1, index_hi_n),
                           (s.index_low + 1, s.index_low, index_hi_s)]
  let es := if i % gnn ≠ 0 then
      es ++ [(s.index_low, index_hi_n, index_hi_n - 2),
             (s.index_low, index_hi_s - 2, index_hi_s)]
    else es
  { s with index_low := s.index_low + 1,
           index_hi_n := index_hi_n, index_hi_s := index_hi_s, elements := es }

/-- One iteration of the inner hemisphere-triangle loop for ring `j`
(src/model/obj.rs lines 156-168). -/
def objHemiTriStep (gnn j : ℕ) (s : ObjTriState) (i : ℕ) : ObjTriState :=
  let index_hi_n := s.index_hi_n + (if i % (gnn - j) = 0 then 0 else 2)
  let index_hi_s := s.index_hi_s + (if i % (gnn - j) = 0 then 0 else 2)
  let es := s.elements ++ [(s.index_low_n, s.index_low_n + 2, index_hi_n),
                           (s.index_low_s + 2, s.index_low_s, index_hi_s)]
  let es := if j < gnn - 1 ∧ i % (gnn - j) ≠ 0 then
      es ++ [(s.index_low_n, index_hi_n, index_hi_n - 2),
             (s.index_low_s, index_hi_s - 2, index_hi_s)]
    else es
  { s with index_low_n := s.index_low_n + 2, index_low_s := s.index_low_s + 2,
           index_hi_n := index_hi_n, index_hi_s := index_hi_s, elements := es }

/-- One ring of the outer hemisphere-triangle loop `for j in 1..gnn-1`
(src/model/obj.rs lines 153-173), including the post-ring counter bumps. -/
def objHemiRingTri (gnn : ℕ) (s : ObjTriState) (j : ℕ) : ObjTriState :=
  let i_len := 4 * (gnn - j)
  let s := (List.range i_len).foldl (objHemiTriStep gnn j) s
  { s with index_hi_n := s.index_hi_n + 2, index_hi_s := s.index_hi_s + 2,
           index_low_n := s.index_low_n + 2, index_low_s := s.index_low_s + 2 }

/-- One iteration of the pole-triangle loop in the `gnn != 1` branch
(src/model/obj.rs lines 176-184). -/
def objPoleTriStep (s : ObjTriState) : ObjTriState :=
  { s with elements := s.elements
             ++ [(s.index_low_n, s.index_low_n + 2, s.index_hi_n),
                 (s.index_low_s + 2, s.index_low_s, s.index_hi_s)],
           index_low_n := s.index_low_n + 2, index_low_s := s.index_low_s + 2 }

/-- One iteration of the degenerate pole-triangle loop in the `gnn == 1`
branch (src/model/obj.rs lines 185-193). -/
def objPoleTriStepDegen (s : ObjTriState) : ObjTriState :=
  { s with elements := s.elements
             ++ [(s.index_low, s.index_low + 1, s.index_hi_n - 2),
                 (s.index_low + 1, s.index_low, s.index_hi_s - 2)],
           index_low := s.index_low + 1 }

/-- Triangle generation of `Obj::create_modelpoints`
(src/model/obj.rs lines 129-193). -/
def objElements (gnn : ℕ) : List (ℕ × ℕ × ℕ) :=
  let s0 : ObjTriState :=
    { index_low := 0, index_hi_n := 4 * gnn + 1, index_hi_s := 4 * gnn + 2,
      index_low_n := 0, index_low_s := 0, elements := [] }
  let s1 := if 4 * gnn > 4 then (List.range (4 * gnn)).foldl (objEquatorTriStep gnn) s0 else s0
  let s2 := { s1 with index_low_n := s1.index_low + 1, index_low_s := s1.index_low + 2,
                      index_hi_n := s1.index_hi_n + 2, index_hi_s := s1.index_hi_s + 2 }
  let s3 := (List.range' 1 (gnn - 1 - 1)).foldl (objHemiRingTri gnn) s2
  let s4 := if gnn ≠ 1 then
      (List.range 4).foldl (fun s _ => objPoleTriStep s) s3
    else
      (List.range 4).foldl (fun s _ => objPoleTriStepDegen s) s3
  s4.elements

/-- `Obj::create_modelpoints` (src/model/obj.rs lines 61-196): equator ring,
interleaved north/south rings with decreasing point counts, two pole points;
the texture-point mapping duplicates the seam column and the per-ring seam
points; triangles per `objElements`. -/
def objCreateModelpoints (model_size : ℕ) (j_spacing : ℚ) :
    ObjPointsState × List (ℕ × ℕ × ℕ) :=
  let gnn := model_size / 2
  let st0 : ObjPointsState :=
    { geopoints := (List.range (4 * gnn)).map
        (fun i : ℕ => { lon := -180 + j_spacing * (i : ℚ), lat := 0 })
      texture_points := (List.range (4 * gnn)).map (fun i => i) ++ [0] }
  let st1 := (List.range' 1 (gnn - 1)).foldl (objRing j_spacing gnn) st0
  let st2 : ObjPointsState :=
    { geopoints := st1.geopoints ++ [{ lon := 0, lat := 90 }, { lon := 0, lat := -90 }]
      texture_points := st1.texture_points
        ++ [st1.geopoints.length, st1.geopoints.length + 1] }
  (st2, objElements gnn)

/-- C1 (amended): after model-size normalization (clamp below 2 up to 2,
decrement odd to even), the seam-duplicating generator yields:
`modelSize = 3` normalizes to 2 with 6 lattice points, 7 texture points and
8 triangles; `modelSize = 4` yields 18 lattice points, 21 texture points and
32 triangles; `modelSize = 8` yields 66 lattice points, 73 texture points and
128 triangles. -/
theorem obj_counts :
    (objMakeValidModelSize (some 3) = 2 ∧
      (objCreateModelpoints 2 (objDefineSpacing 2)).1.geopoints.length = 6 ∧
      (objCreateModelpoints 2 (objDefineSpacing 2)).1.texture_points.length = 7 ∧
      (objCreateModelpoints 2 (objDefineSpacing 2)).2.length = 8) ∧
    (objMakeValidModelSize (some 4) = 4 ∧
      (objCreateModelpoints 4 (objDefineSpacing 4)).1.geopoints.length = 18 ∧
      (objCreateModelpoints 4 (objDefineSpacing 4)).1.texture_points.length = 21 ∧
      (objCreateModelpoints 4 (objDefineSpacing 4)).2.length = 32) ∧
    (objMakeValidModelSize (some 8) = 8 ∧
      (objCreateModelpoints 8 (objDefineSpacing 8)).1.geopoints.length = 66 ∧
      (objCreateModelpoints 8 (objDefineSpacing 8)).1.texture_points.length = 73 ∧
      (objCreateModelpoints 8 (objDefineSpacing 8)).2.length = 128) := by
  refine ⟨⟨rfl, rfl, rfl, rfl⟩, ⟨rfl, rfl, rfl, rfl⟩, ⟨rfl, rfl, rfl, rfl⟩⟩

/-- C1 counterexample: for `modelSize = 3` (normalized to 2) the lattice-point
count is 6, not the 8 stated by the claim. -/
theorem obj_counts_cex :
    (objCreateModelpoints (objMakeValidModelSize (some 3))
      (objDefineSpacing (objMakeValidModelSize (some 3)))).1.geopoints.length = 6 ∧
    (6 : ℕ) ≠ 8 := by
  exact ⟨rfl, by omega⟩

/-- `RGB` color from src/common/color.rs: three channels,
`ColorComponent = f32` embedded as `ℚ`. -/
structure RGB where
  r : ℚ
  g : ℚ
  b : ℚ
deriving DecidableEq, Repr

/-- `DEFAULT_COLOR` from src/common/color.rs. -/
def DEFAULT_COLOR : RGB := { r := 1/2, g := 1/2, b := 1/2 }

/-- `ColorRecord` from src/common/color.rs: one breakpoint of the color
profile, `HeightInt = i16` embedded as `ℤ`. -/
structure ColorRecord where
  h : ℤ
  r : ℚ
  g : ℚ
  b : ℚ
deriving DecidableEq, Repr

/-- Rust `f32::round`: round half away from zero, embedded on `ℚ`. -/
def rustRound (q : ℚ) : ℤ :=
  if 0 ≤ q then ⌊q + 1/2⌋ else -⌊-q + 1/2⌋

/-- Rust saturating float→`u16` cast (`r_k as ColorPrecision`). -/
def castU16 (z : ℤ) : ℕ := min z.toNat 65535

/-- `make_allowed_color_function` (src/common/color.rs lines 153-171):
`interval = 1/prec`; for `prec > 0` each channel independently rounds to the
nearest multiple of `interval` with index `round(channel/interval)`; for
`prec = 0` the fixed default gray and index `(0,0,0)` are returned. -/
def make_allowed_color_function (prec : ℕ) (color : RGB) : RGB × (ℕ × ℕ × ℕ) :=
  let interval : ℚ := 1 / (prec : ℚ)
  if prec > 0 then
    let r_k := rustRound (color.r / interval)
    let g_k := rustRound (color.g / interval)
    let b_k := rustRound (color.b / interval)
    ({ r := (r_k : ℚ) * interval, g := (g_k : ℚ) * interval, b := (b_k : ℚ) * interval },
     (castU16 r_k, castU16 g_k, castU16 b_k))
  else
    (DEFAULT_COLOR, (0, 0, 0))

theorem rustRound_nonneg {q : ℚ} (hq : 0 ≤ q) : 0 ≤ rustRound q := by
  rw [rustRound, if_pos hq]
  positivity

theorem rustRound_le {q : ℚ} {p : ℤ} (hq : 0 ≤ q) (h : q ≤ (p : ℚ)) :
    rustRound q ≤ p := by
  rw [rustRound, if_pos hq]
  rw [Int.floor_le_iff]
  linarith

theorem div_one_div {x : ℚ} {p : ℕ} (hp : p ≠ 0) : x / (1 / (p : ℚ)) = x * p := by
  have : ((p : ℚ)) ≠ 0 := Nat.cast_ne_zero.mpr hp
  field_simp

/-- C7: for precision `p > 0` and any color with channels in `[0,1]` (the data
model's color range), each channel of the quantized color equals
`round(channel*p)/p` and the returned index equals `round(channel*p)` in each
component; for `p = 0`, the result is the fixed default gray with index
`(0,0,0)` regardless of the input color. -/
theorem make_allowed_color_function_spec (p : ℕ) (c : RGB) (hp65535 : p ≤ 65535) :
    (0 < p → 0 ≤ c.r → c.r ≤ 1 → 0 ≤ c.g → c.g ≤ 1 → 0 ≤ c.b → c.b ≤ 1 →
      (make_allowed_color_function p c).1 =
        { r := (rustRound (c.r * p) : ℚ) / p
          g := (rustRound (c.g * p) : ℚ) / p
          b := (rustRound (c.b * p) : ℚ) / p } ∧
      (((make_allowed_color_function p c).2.1 : ℤ) = rustRound (c.r * p) ∧
       ((make_allowed_color_function p c).2.2.1 : ℤ) = rustRound (c.g * p) ∧
       ((make_allowed_color_function p c).2.2.2 : ℤ) = rustRound (c.b * p))) ∧
    (p = 0 → make_allowed_color_function p c = (DEFAULT_COLOR, (0, 0, 0))) := by
  constructor
  · intro hp hr0 hr1 hg0 hg1 hb0 hb1
    have hpne : p ≠ 0 := Nat.pos_iff_ne_zero.mp hp
    have hpq : ((p : ℚ)) ≠ 0 := Nat.cast_ne_zero.mpr hpne
    have hcast : ∀ x : ℚ, 0 ≤ x → x ≤ 1 → (castU16 (rustRound (x * p)) : ℤ) = rustRound (x * p) := by
      intro x hx0 hx1
      have hx0' : 0 ≤ x * p := by positivity
      have hxle : x * p ≤ (p : ℚ) := by
        calc x * p ≤ 1 * p := by
              apply mul_le_mul_of_nonneg_right hx1
              positivity
          _ = (p : ℚ) := one_mul _
      have h0 := rustRound_nonneg hx0'
      have h1 : rustRound (x * p) ≤ (p : ℤ) := rustRound_le hx0' (by exact_mod_cast hxle)
      have : rustRound (x * p) ≤ 65535 := le_trans h1 (by exact_mod_cast hp65535)
      rw [castU16]
      omega
    rw [make_allowed_color_function]
    simp only [if_pos hp]
    refine ⟨?_, ?_, ?_, ?_⟩
    · rw [div_one_div hpne, div_one_div hpne, div_one_div hpne]
      congr 1 <;> rw [mul_one_div]
    · simp only [div_one_div hpne]
      exact hcast c.r hr0 hr1
    · simp only [div_one_div hpne]
      exact hcast c.g hg0 hg1
    · simp only [div_one_div hpne]
      exact hcast c.b hb0 hb1
  · intro hp
    subst hp
    rfl

/-- Witness for C7 at `p = 2` and color `(0, 1, 1/2)`, and at `p = 0`. -/
theorem make_allowed_color_function_spec_witness :
    ((0 < 2 → (0:ℚ) ≤ 0 → (0:ℚ) ≤ 1 → (0:ℚ) ≤ 1 → (1:ℚ) ≤ 1 → (0:ℚ) ≤ 1/2 → (1/2:ℚ) ≤ 1 →
      (make_allowed_color_function 2 { r := 0, g := 1, b := 1/2 }).1 =
        { r := (rustRound ((0:ℚ) * 2) : ℚ) / 2
          g := (rustRound ((1:ℚ) * 2) : ℚ) / 2
          b := (rustRound ((1/2:ℚ) * 2) : ℚ) / 2 } ∧
      (((make_allowed_color_function 2 { r := 0, g := 1, b := 1/2 }).2.1 : ℤ) = rustRound ((0:ℚ) * 2) ∧
       ((make_allowed_color_function 2 { r := 0, g := 1, b := 1/2 }).2.2.1 : ℤ) = rustRound ((1:ℚ) * 2) ∧
       ((make_allowed_color_function 2 { r := 0, g := 1, b := 1/2 }).2.2.2 : ℤ) = rustRound ((1/2:ℚ) * 2))) ∧
    ((2:ℕ) = 0 → make_allowed_color_function 2 { r := 0, g := 1, b := 1/2 } = (DEFAULT_COLOR, (0, 0, 0)))) :=
  make_allowed_color_function_spec 2 { r := 0, g := 1, b := 1/2 } (by omega)

/-- Error message for a bad channel in column `col` (second/third/fourth) at
1-based line `l` (src/common/color.rs lines 73-81). -/
def colMsg (col : String) (l : ℕ) : String :=
  "Invalid number in " ++ col ++ " column of line " ++ toString l ++ " in color profile"

/-- The fixed monotonicity error message (src/common/color.rs line 84):
note it carries no line number. -/
def monoMsg : String := "Heights in color profile must be strictly incremental"

/-- The empty-table error message (src/common/color.rs line 95). -/
def emptyMsg : String := "Color table is empty"

/-- The loop of `build_color_table` (src/common/color.rs lines 58-99), over
pre-parsed line contents: `none` is a line the row regex does not match
(silently skipped), `some row` a parsed `(h, r, g, b)` row.  `l` is the line
counter, `prev_h` the previous accepted elevation (initially -32767), `acc`
the accumulated table. -/
def buildColorTableAux : ℕ → ℤ → List ColorRecord → List (Option ColorRecord) →
    Except String (List ColorRecord)
  | _, _, acc, [] => if acc = [] then .error emptyMsg else .ok acc
  | l, prev_h, acc, none :: rest => buildColorTableAux (l + 1) prev_h acc rest
  | l, prev_h, acc, some row :: rest =>
      if row.r > 1 ∨ row.r < 0 then .error (colMsg "second" (l + 1))
      else if row.g > 1 ∨ row.g < 0 then .error (colMsg "third" (l + 1))
      else if row.b > 1 ∨ row.b < 0 then .error (colMsg "fourth" (l + 1))
      else if row.h ≤ prev_h then .error monoMsg
      else buildColorTableAux (l + 1) row.h (acc ++ [row]) rest

/-- `build_color_table` (src/common/color.rs lines 58-99). -/
def buildColorTable (file_content : List (Option ColorRecord)) :
    Except String (List ColorRecord) :=
  buildColorTableAux 0 (-32767) [] file_content

/-- Elevations of a record list are strictly increasing starting above `p`. -/
def StrictFrom (p : ℤ) : List ColorRecord → Prop
  | [] => True
  | row :: rest => p < row.h ∧ StrictFrom row.h rest

theorem strictFrom_chain : ∀ (p : ℤ) (l : List ColorRecord), StrictFrom p l →
    List.Chain' (fun a b => a.h < b.h) l := by
  intro p l
  induction l generalizing p with
  | nil => intro _; exact List.chain'_nil
  | cons a rest ih =>
      intro h
      rcases h with ⟨_, hrest⟩
      rcases rest with _ | ⟨b, rest'⟩
      · simp
      · exact List.Chain'.cons hrest.1 (ih a.h hrest)

/-- All channels of a record are inside `[0,1]`. -/
def ChannelsOk (row : ColorRecord) : Prop :=
  0 ≤ row.r ∧ row.r ≤ 1 ∧ 0 ≤ row.g ∧ row.g ≤ 1 ∧ 0 ≤ row.b ∧ row.b ≤ 1

theorem buildColorTableAux_ok_sound :
    ∀ (content : List (Option ColorRecord)) (l : ℕ) (prev : ℤ)
      (acc t : List ColorRecord),
      buildColorTableAux l prev acc content = .ok t →
      t = acc ++ content.filterMap id ∧
      StrictFrom prev (content.filterMap id) ∧
      (∀ row ∈ content.filterMap id, ChannelsOk row) := by
  intro content
  induction content with
  | nil =>
      intro l prev acc t h
      simp only [buildColorTableAux] at h
      split at h
      · exact absurd h (by simp)
      · simp only [Except.ok.injEq] at h
        subst h
        simp [StrictFrom]
  | cons line rest ih =>
      intro l prev acc t h
      match line with
      | none =>
          simp only [buildColorTableAux] at h
          have := ih (l + 1) prev acc t h
          simpa using this
      | some row =>
          simp only [buildColorTableAux] at h
          split at h
          · exact absurd h (by simp)
          · split at h
            · exact absurd h (by simp)
            · split at h
              · exact absurd h (by simp)
              · split at h
                · exact absurd h (by simp)
                · rename_i hr hg hb hh
                  have := ih (l + 1) row.h (acc ++ [row]) t h
                  rcases this with ⟨ht, hs, hch⟩
                  push_neg at hr hg hb hh
                  refine ⟨by simpa using ht, ⟨hh, hs⟩, ?_⟩
                  intro r hr'
                  simp only [List.filterMap_cons, id] at hr'
                  rcases List.mem_cons.mp hr' with h1 | h2
                  · subst h1
                    exact ⟨hr.2, hr.1, hg.2, hg.1, hb.2, hb.1⟩
                  · exact hch r h2

theorem buildColorTableAux_ok_ne_nil :
    ∀ (content : List (Option ColorRecord)) (l : ℕ) (prev : ℤ)
      (acc t : List ColorRecord),
      buildColorTableAux l prev acc content = .ok t → t ≠ [] := by
  intro content
  induction content with
  | nil =>
      intro l prev acc t h
      simp only [buildColorTableAux] at h
      split at h
      · exact absurd h (by simp)
      · rename_i hacc
        simp only [Except.ok.injEq] at h
        subst h
        exact hacc
  | cons line rest ih =>
      intro l prev acc t h
      match line with
      | none =>
          exact ih (l + 1) prev acc t h
      | some row =>
          simp only [buildColorTableAux] at h
          split at h
          · exact absurd h (by simp)
          · split at h
            · exact absurd h (by simp)
            · split at h
              · exact absurd h (by simp)
              · split at h
                · exact absurd h (by simp)
                · exact ih (l + 1) row.h (acc ++ [row]) t h

theorem buildColorTableAux_empty_rows :
    ∀ (content : List (Option ColorRecord)) (l : ℕ) (prev : ℤ)
      (acc : List ColorRecord),
      content.filterMap id = [] →
      buildColorTableAux l prev acc content =
        (if acc = [] then .error emptyMsg else .ok acc) := by
  intro content
  induction content with
  | nil => intro l prev acc _; rfl
  | cons line rest ih =>
      intro l prev acc hrows
      match line with
      | none =>
          simp only [List.filterMap_cons, id] at hrows
          exact ih (l + 1) prev acc hrows
      | some row =>
          simp only [List.filterMap_cons, id] at hrows
          exact absurd hrows (by simp)

theorem buildColorTableAux_error_forms :
    ∀ (content : List (Option ColorRecord)) (l : ℕ) (prev : ℤ)
      (acc : List ColorRecord) (e : String),
      buildColorTableAux l prev acc content = .error e →
      e = emptyMsg ∨ e = monoMsg ∨
      ∃ k row, content[k]? = some (some row) ∧
        ((e = colMsg "second" (l + k + 1) ∧ (row.r > 1 ∨ row.r < 0)) ∨
         (e = colMsg "third" (l + k + 1) ∧ (row.g > 1 ∨ row.g < 0)) ∨
         (e = colMsg "fourth" (l + k + 1) ∧ (row.b > 1 ∨ row.b < 0))) := by
  intro content
  induction content with
  | nil =>
      intro l prev acc e h
      simp only [buildColorTableAux] at h
      split at h
      · simp only [Except.error.injEq] at h
        exact Or.inl h.symm
      · exact absurd h (by simp)
  | cons line rest ih =>
      intro l prev acc e h
      match line with
      | none =>
          simp only [buildColorTableAux] at h
          rcases ih (l + 1) prev acc e h with h1 | h2 | ⟨k, row, hk, hforms⟩
          · exact Or.inl h1
          · exact Or.inr (Or.inl h2)
          · refine Or.inr (Or.inr ⟨k + 1, row, ?_, ?_⟩)
            · simpa using hk
            · have : l + 1 + k + 1 = l + (k + 1) + 1 := by omega
              rw [this] at hforms
              exact hforms
      | some row =>
          simp only [buildColorTableAux] at h
          split at h
          · rename_i hr
            simp only [Except.error.injEq] at h
            exact Or.inr (Or.inr ⟨0, row, by simp, Or.inl ⟨h.symm, hr⟩⟩)
          · split at h
            · rename_i hg
              simp only [Except.error.injEq] at h
              exact Or.inr (Or.inr ⟨0, row, by simp, Or.inr (Or.inl ⟨h.symm, hg⟩)⟩)
            · split at h
              · rename_i hb
                simp only [Except.error.injEq] at h
                exact Or.inr (Or.inr ⟨0, row, by simp, Or.inr (Or.inr ⟨h.symm, hb⟩)⟩)
              · split at h
                · simp only [Except.error.injEq] at h
                  exact Or.inr (Or.inl h.symm)
                · rcases ih (l + 1) row.h (acc ++ [row]) e h with h1 | h2 | ⟨k, row', hk, hforms⟩
                  · exact Or.inl h1
                  · exact Or.inr (Or.inl h2)
                  · refine Or.inr (Or.inr ⟨k + 1, row', ?_, ?_⟩)
                    · simpa using hk
                    · have : l + 1 + k + 1 = l + (k + 1) + 1 := by omega
                      rw [this] at hforms
                      exact hforms

/-- C5 (amended): `build_color_table` rejects input with no valid row (fixed
message "Color table is empty"); a successful build returns exactly the parsed
rows, nonempty, with every channel in `[0,1]` and strictly increasing
elevations (so any violation is rejected); every channel error message is
column-specific and cites the 1-based line of the offending row, while the
not-strictly-increasing case produces the fixed message "Heights in color
profile must be strictly incremental" without a line number. -/
theorem build_color_table_spec (content : List (Option ColorRecord)) :
    (content.filterMap id = [] → buildColorTable content = .error emptyMsg) ∧
    (∀ t, buildColorTable content = .ok t →
      t = content.filterMap id ∧ t ≠ [] ∧
      (∀ row ∈ t, ChannelsOk row) ∧
      List.Chain' (fun a b => a.h < b.h) t) ∧
    (∀ e, buildColorTable content = .error e →
      e = emptyMsg ∨ e = monoMsg ∨
      ∃ k row, content[k]? = some (some row) ∧
        ((e = colMsg "second" (k + 1) ∧ (row.r > 1 ∨ row.r < 0)) ∨
         (e = colMsg "third" (k + 1) ∧ (row.g > 1 ∨ row.g < 0)) ∨
         (e = colMsg "fourth" (k + 1) ∧ (row.b > 1 ∨ row.b < 0)))) := by
  refine ⟨?_, ?_, ?_⟩
  · intro hrows
    rw [buildColorTable, buildColorTableAux_empty_rows content 0 (-32767) [] hrows]
    rfl
  · intro t h
    have hs := buildColorTableAux_ok_sound content 0 (-32767) [] t h
    have hne := buildColorTableAux_ok_ne_nil content 0 (-32767) [] t h
    rcases hs with ⟨ht, hstrict, hch⟩
    simp only [List.nil_append] at ht
    subst ht
    exact ⟨rfl, hne, hch, strictFrom_chain _ _ hstrict⟩
  · intro e h
    have := buildColorTableAux_error_forms content 0 (-32767) [] e h
    simpa using this

/-- C5 counterexample: a profile whose third row's elevation 500 is not above
the previous 1500 is rejected with the fixed message "Heights in color profile
must be strictly incremental", which contains no digit at all — so it cannot
cite the 1-based number of the offending line, contrary to the claim. -/
theorem build_color_table_mono_cex :
    buildColorTable
      [some { h := 0, r := 0, g := 0, b := 1 },
       some { h := 1500, r := 1, g := 0, b := 0 },
       some { h := 500, r := 1, g := 1, b := 0 }] = .error monoMsg ∧
    ∀ c ∈ monoMsg.toList, ¬ c.isDigit := by
  constructor
  · norm_num [buildColorTable, buildColorTableAux]
  · decide

/-- Witness for the amended C5 theorem: a one-row profile builds successfully
and satisfies the success characterization. -/
theorem build_color_table_spec_witness :
    [({ h := 0, r := 0, g := 0, b := 1 } : ColorRecord)] =
      ([some { h := 0, r := 0, g := 0, b := 1 }] :
        List (Option ColorRecord)).filterMap id ∧
    [({ h := 0, r := 0, g := 0, b := 1 } : ColorRecord)] ≠ [] ∧
    (∀ row ∈ [({ h := 0, r := 0, g := 0, b := 1 } : ColorRecord)], ChannelsOk row) ∧
    List.Chain' (fun a b => a.h < b.h)
      [({ h := 0, r := 0, g := 0, b := 1 } : ColorRecord)] :=
  (build_color_table_spec [some { h := 0, r := 0, g := 0, b := 1 }]).2.1 _
    (by norm_num [buildColorTable, buildColorTableAux])

/-- The interpolated color inserted by `build_color_mapping` for elevation `h`
between breakpoints `r0` and `r1` (src/common/color.rs lines 117-125). -/
def interpColor (r0 r1 : ColorRecord) (h : ℤ) : RGB :=
  let delta_h : ℚ := ((h - r0.h : ℤ) : ℚ)
  let span_h : ℚ := ((r1.h - r0.h : ℤ) : ℚ)
  { r := r0.r + (r1.r - r0.r) * delta_h / span_h
    g := r0.g + (r1.g - r0.g) * delta_h / span_h
    b := r0.b + (r1.b - r0.b) * delta_h / span_h }

/-- The integer range `h0..h1` (right end excluded) of the Rust `for h in
h0..h1` loop. -/
def intRange (h0 h1 : ℤ) : List ℤ :=
  (List.range (h1 - h0).toNat).map (fun d : ℕ => h0 + (d : ℤ))

/-- The inner loop of `build_color_mapping` for one consecutive breakpoint
pair: insert the interpolated color at every integer elevation in
`[r0.h, r1.h)`. -/
def insertGapFold (m : ℤ → Option RGB) (r0 r1 : ColorRecord) : ℤ → Option RGB :=
  (intRange r0.h r1.h).foldl
    (fun acc h => Function.update acc h (some (interpColor r0 r1 h))) m

/-- The fold of `build_color_mapping` over consecutive breakpoint pairs
(`zip` of the table with itself shifted by one). -/
def pairsFold (t : List ColorRecord) (m0 : ℤ → Option RGB) : ℤ → Option RGB :=
  (t.zip (t.drop 1)).foldl (fun m pr => insertGapFold m pr.1 pr.2) m0

/-- `build_color_mapping` (src/common/color.rs lines 102-129): insert the last
row's color at the largest elevation, then fill every gap `[h_k, h_{k+1})`
with per-unit linear interpolation.  The `last().unwrap()` panic on an empty
table is embedded as the everywhere-`none` map (the pipeline only calls this
with a successfully built, hence nonempty, table). -/
def buildColorMapping (t : List ColorRecord) : ℤ → Option RGB :=
  match t.getLast? with
  | none => fun _ => none
  | some lastRow =>
      pairsFold t (Function.update (fun _ => none) lastRow.h
        (some { r := lastRow.r, g := lastRow.g, b := lastRow.b }))

/-- The lookup closure returned by `get_color_mapping` (src/common/color.rs
lines 132-150): exact mapping hit, else clamp below the first and above the
last breakpoint; the remaining case is the `panic!("Missing color ...")`
branch, embedded as `none`.  The `first()/last().unwrap()` on an empty table
is likewise embedded as the everywhere-`none` function. -/
def colorLookup (t : List ColorRecord) : ℤ → Option RGB :=
  match t.head?, t.getLast? with
  | some firstRow, some lastRow =>
      fun h =>
        match buildColorMapping t h with
        | some c => some c
        | none =>
            if h < firstRow.h then some { r := firstRow.r, g := firstRow.g, b := firstRow.b }
            else if h > lastRow.h then some { r := lastRow.r, g := lastRow.g, b := lastRow.b }
            else none
  | _, _ => fun _ => none

theorem mem_intRange {h0 h1 h : ℤ} : h ∈ intRange h0 h1 ↔ h0 ≤ h ∧ h < h1 := by
  rw [intRange]
  simp only [List.mem_map, List.mem_range]
  constructor
  · rintro ⟨d, hd, rfl⟩
    omega
  · intro ⟨hle, hlt⟩
    exact ⟨(h - h0).toNat, by omega, by omega⟩

theorem foldl_update_char (l : List ℤ) (f : ℤ → RGB) (m : ℤ → Option RGB) (h : ℤ) :
    (l.foldl (fun acc x => Function.update acc x (some (f x))) m) h =
      if h ∈ l then some (f h) else m h := by
  induction l generalizing m with
  | nil => simp
  | cons x xs ih =>
      rw [List.foldl_cons, ih]
      by_cases hx : h ∈ xs
      · simp [hx]
      · by_cases hhx : h = x
        · subst hhx
          simp [hx, Function.update]
        · simp [hx, hhx, Function.update]

theorem insertGapFold_char (m : ℤ → Option RGB) (r0 r1 : ColorRecord) (h : ℤ) :
    insertGapFold m r0 r1 h =
      if r0.h ≤ h ∧ h < r1.h then some (interpColor r0 r1 h) else m h := by
  rw [insertGapFold, foldl_update_char]
  by_cases hm : h ∈ intRange r0.h r1.h
  · rw [if_pos hm, if_pos (mem_intRange.mp hm)]
  · rw [if_neg hm, if_neg (fun hc => hm (mem_intRange.mpr hc))]

theorem pairsFold_above (t : List ColorRecord) (m0 : ℤ → Option RGB) (h : ℤ)
    (hab : ∀ r ∈ t, r.h ≤ h) : pairsFold t m0 h = m0 h := by
  induction t generalizing m0 with
  | nil => rfl
  | cons a rest ih =>
      match rest with
      | [] => rfl
      | b :: rest' =>
          show pairsFold (b :: rest') (insertGapFold m0 a b) h = m0 h
          rw [ih (insertGapFold m0 a b) (fun r hr => hab r (List.mem_cons_of_mem a hr)),
              insertGapFold_char]
          rw [if_neg]
          intro ⟨_, hlt⟩
          exact absurd (hab b (by simp)) (by omega)

theorem pairsFold_below (t : List ColorRecord) (m0 : ℤ → Option RGB) (h : ℤ)
    (hbl : ∀ r ∈ t, h < r.h) : pairsFold t m0 h = m0 h := by
  induction t generalizing m0 with
  | nil => rfl
  | cons a rest ih =>
      match rest with
      | [] => rfl
      | b :: rest' =>
          show pairsFold (b :: rest') (insertGapFold m0 a b) h = m0 h
          rw [ih (insertGapFold m0 a b) (fun r hr => hbl r (List.mem_cons_of_mem a hr)),
              insertGapFold_char]
          rw [if_neg]
          intro ⟨hle, _⟩
          exact absurd (hbl a (by simp)) (by omega)

theorem getLast?_mem_of_eq :
    ∀ {t : List ColorRecord} {lastRow : ColorRecord},
      t.getLast? = some lastRow → lastRow ∈ t
  | [], _, h => by simp at h
  | [a], lastRow, h => by
      simp only [List.getLast?_singleton, Option.some.injEq] at h
      simp [h]
  | a :: b :: rest, lastRow, h => by
      rw [List.getLast?_cons_cons] at h
      exact List.mem_cons_of_mem a (getLast?_mem_of_eq h)

theorem chain'_pair_lt :
    ∀ {t : List ColorRecord} {r0 r1 : ColorRecord},
      List.Chain' (fun a b => a.h < b.h) t →
      (r0, r1) ∈ t.zip (t.drop 1) → r0.h < r1.h
  | [], _, _, _, hm => by simp [List.zip] at hm
  | [a], _, _, _, hm => by simp [List.zip] at hm
  | a :: b :: rest, r0, r1, hc, hm => by
      have hz : (a :: b :: rest).zip ((a :: b :: rest).drop 1) =
          (a, b) :: ((b :: rest).zip ((b :: rest).drop 1)) := rfl
      rw [hz, List.mem_cons] at hm
      rcases hm with hm | hm
      · rcases Prod.mk.injEq .. ▸ hm with ⟨h0, h1⟩
        subst h0; subst h1
        exact (List.chain'_cons.mp hc).1
      · exact chain'_pair_lt (List.chain'_cons.mp hc).2 hm

theorem chain'_head_le :
    ∀ {t : List ColorRecord} {firstRow : ColorRecord},
      List.Chain' (fun a b => a.h < b.h) t →
      t.head? = some firstRow →
      ∀ r ∈ t, firstRow.h ≤ r.h
  | [], _, _, hh => by simp at hh
  | a :: rest, firstRow, hc, hh => by
      simp only [List.head?_cons, Option.some.injEq] at hh
      subst hh
      intro r hr
      rcases List.mem_cons.mp hr with hr | hr
      · subst hr; exact le_refl _
      · match rest, hr with
        | b :: rest', hr =>
            have hab := (List.chain'_cons.mp hc).1
            have := chain'_head_le (List.chain'_cons.mp hc).2 rfl r hr
            omega

theorem chain'_le_last :
    ∀ {t : List ColorRecord} {lastRow : ColorRecord},
      List.Chain' (fun a b => a.h < b.h) t →
      t.getLast? = some lastRow →
      ∀ r ∈ t, r.h ≤ lastRow.h
  | [], _, _, hh => by simp at hh
  | [a], lastRow, _, hh => by
      simp only [List.getLast?_singleton, Option.some.injEq] at hh
      subst hh
      intro r hr
      rcases List.mem_cons.mp hr with hr | hr
      · subst hr; exact le_refl _
      · simp at hr
  | a :: b :: rest, lastRow, hc, hh => by
      rw [List.getLast?_cons_cons] at hh
      intro r hr
      have htail := chain'_le_last (List.chain'_cons.mp hc).2 hh
      rcases List.mem_cons.mp hr with hr | hr
      · subst hr
        have hab := (List.chain'_cons.mp hc).1
        have := htail b (by simp)
        omega
      · exact htail r hr

theorem pairsFold_cov :
    ∀ {t : List ColorRecord} {r0 r1 : ColorRecord} (m0 : ℤ → Option RGB) (h : ℤ),
      List.Chain' (fun a b => a.h < b.h) t →
      (r0, r1) ∈ t.zip (t.drop 1) →
      r0.h ≤ h → h < r1.h →
      pairsFold t m0 h = some (interpColor r0 r1 h)
  | [], _, _, _, _, _, hm => by simp [List.zip] at hm
  | [a], _, _, _, _, _, hm => by simp [List.zip] at hm
  | a :: b :: rest, r0, r1, m0, h, hc, hm => by
      intro hle hlt
      have hz : (a :: b :: rest).zip ((a :: b :: rest).drop 1) =
          (a, b) :: ((b :: rest).zip ((b :: rest).drop 1)) := rfl
      have hstep : pairsFold (a :: b :: rest) m0 =
          pairsFold (b :: rest) (insertGapFold m0 a b) := rfl
      rw [hz, List.mem_cons] at hm
      rcases hm with hm | hm
      · rcases Prod.mk.injEq .. ▸ hm with ⟨h0, h1⟩
        subst h0; subst h1
        rw [hstep, pairsFold_below]
        · rw [insertGapFold_char, if_pos ⟨hle, hlt⟩]
        · intro r hr
          have := chain'_head_le (List.chain'_cons.mp hc).2 rfl r hr
          omega
      · rw [hstep]
        exact pairsFold_cov _ h (List.chain'_cons.mp hc).2 hm hle hlt

theorem exists_cov :
    ∀ {t : List ColorRecord} {firstRow lastRow : ColorRecord} (h : ℤ),
      List.Chain' (fun a b => a.h < b.h) t →
      t.head? = some firstRow → t.getLast? = some lastRow →
      firstRow.h ≤ h → h < lastRow.h →
      ∃ r0 r1, (r0, r1) ∈ t.zip (t.drop 1) ∧ r0.h ≤ h ∧ h < r1.h
  | [], _, _, _, _, hh, _ => by simp at hh
  | [a], firstRow, lastRow, h, _, hh, hl => by
      simp only [List.head?_cons, Option.some.injEq] at hh
      simp only [List.getLast?_singleton, Option.some.injEq] at hl
      subst hh; subst hl
      intro hle hlt
      omega
  | a :: b :: rest, firstRow, lastRow, h, hc, hh, hl => by
      simp only [List.head?_cons, Option.some.injEq] at hh
      subst hh
      rw [List.getLast?_cons_cons] at hl
      intro hle hlt
      by_cases hb : h < b.h
      · exact ⟨a, b, by simp [List.zip], hle, hb⟩
      · push_neg at hb
        have ⟨r0, r1, hm, hle', hlt'⟩ :=
          exists_cov h (List.chain'_cons.mp hc).2 rfl hl hb hlt
        exact ⟨r0, r1, List.mem_cons_of_mem _ hm, hle', hlt'⟩

theorem mem_last_or_pair :
    ∀ {t : List ColorRecord} {r : ColorRecord}, r ∈ t →
      (∃ r', (r, r') ∈ t.zip (t.drop 1)) ∨ t.getLast? = some r
  | [], _, hr => by simp at hr
  | [a], r, hr => by
      rcases List.mem_cons.mp hr with hr | hr
      · subst hr; exact Or.inr rfl
      · simp at hr
  | a :: b :: rest, r, hr => by
      have hz : (a :: b :: rest).zip ((a :: b :: rest).drop 1) =
          (a, b) :: ((b :: rest).zip ((b :: rest).drop 1)) := rfl
      rcases List.mem_cons.mp hr with hr | hr
      · subst hr
        exact Or.inl ⟨b, by rw [hz]; simp⟩
      · rcases mem_last_or_pair hr with ⟨r', hm⟩ | hl
        · exact Or.inl ⟨r', by rw [hz]; exact List.mem_cons_of_mem _ hm⟩
        · exact Or.inr (by rw [List.getLast?_cons_cons]; exact hl)

theorem interpColor_left (r0 r1 : ColorRecord) :
    interpColor r0 r1 r0.h = { r := r0.r, g := r0.g, b := r0.b } := by
  simp [interpColor]

theorem buildColorMapping_at_last {t : List ColorRecord} {lastRow : ColorRecord}
    (hc : List.Chain' (fun a b => a.h < b.h) t)
    (hl : t.getLast? = some lastRow) :
    buildColorMapping t lastRow.h =
      some { r := lastRow.r, g := lastRow.g, b := lastRow.b } := by
  rw [buildColorMapping, hl]
  show pairsFold t (Function.update (fun _ => none) lastRow.h
    (some { r := lastRow.r, g := lastRow.g, b := lastRow.b })) _ = _
  rw [pairsFold_above]
  · exact Function.update_same _ _ _
  · exact chain'_le_last hc hl

theorem buildColorMapping_below {t : List ColorRecord}
    {firstRow lastRow : ColorRecord} {h : ℤ}
    (hc : List.Chain' (fun a b => a.h < b.h) t)
    (hh : t.head? = some firstRow) (hl : t.getLast? = some lastRow)
    (hlt : h < firstRow.h) :
    buildColorMapping t h = none := by
  rw [buildColorMapping, hl]
  show pairsFold t (Function.update (fun _ => none) lastRow.h
    (some { r := lastRow.r, g := lastRow.g, b := lastRow.b })) _ = _
  rw [pairsFold_below]
  · have hfl : firstRow.h ≤ lastRow.h :=
      chain'_head_le hc hh lastRow (getLast?_mem_of_eq hl)
    rw [Function.update_noteq (by omega)]
  · intro r hr
    have := chain'_head_le hc hh r hr
    omega

theorem buildColorMapping_above {t : List ColorRecord}
    {lastRow : ColorRecord} {h : ℤ}
    (hc : List.Chain' (fun a b => a.h < b.h) t)
    (hl : t.getLast? = some lastRow)
    (hgt : lastRow.h < h) :
    buildColorMapping t h = none := by
  rw [buildColorMapping, hl]
  show pairsFold t (Function.update (fun _ => none) lastRow.h
    (some { r := lastRow.r, g := lastRow.g, b := lastRow.b })) _ = _
  rw [pairsFold_above]
  · rw [Function.update_noteq (by omega)]
  · intro r hr
    have := chain'_le_last hc hl r hr
    omega

theorem buildColorMapping_cov {t : List ColorRecord}
    {lastRow r0 r1 : ColorRecord} {h : ℤ}
    (hc : List.Chain' (fun a b => a.h < b.h) t)
    (hl : t.getLast? = some lastRow)
    (hm : (r0, r1) ∈ t.zip (t.drop 1))
    (hle : r0.h ≤ h) (hlt : h < r1.h) :
    buildColorMapping t h = some (interpColor r0 r1 h) := by
  rw [buildColorMapping, hl]
  show pairsFold t (Function.update (fun _ => none) lastRow.h
    (some { r := lastRow.r, g := lastRow.g, b := lastRow.b })) _ = _
  exact pairsFold_cov _ h hc hm hle hlt

/-- C4: for a successfully built color table (first breakpoint `firstRow`,
last breakpoint `lastRow`), the lookup returned by `get_color_mapping` is
total: it clamps below the first and above the last breakpoint, returns the
exact row color at every breakpoint elevation, returns the per-unit
piecewise-linear interpolation at every integer elevation strictly between
consecutive breakpoints, and is `some` (the `panic!("Missing color ...")`
branch, embedded as `none`, is unreachable) for every integer elevation in
`[firstRow.h, lastRow.h]`. -/
theorem color_lookup_total (content : List (Option ColorRecord))
    (t : List ColorRecord) (firstRow lastRow : ColorRecord)
    (hbuild : buildColorTable content = .ok t)
    (hh : t.head? = some firstRow) (hl : t.getLast? = some lastRow) :
    (∀ h : ℤ, h < firstRow.h →
      colorLookup t h = some { r := firstRow.r, g := firstRow.g, b := firstRow.b }) ∧
    (∀ h : ℤ, lastRow.h < h →
      colorLookup t h = some { r := lastRow.r, g := lastRow.g, b := lastRow.b }) ∧
    (∀ row ∈ t, colorLookup t row.h = some { r := row.r, g := row.g, b := row.b }) ∧
    (∀ r0 r1, (r0, r1) ∈ t.zip (t.drop 1) → ∀ h : ℤ, r0.h < h → h < r1.h →
      colorLookup t h = some (interpColor r0 r1 h)) ∧
    (∀ h : ℤ, firstRow.h ≤ h → h ≤ lastRow.h → (colorLookup t h).isSome = true) := by
  have hsound := buildColorTableAux_ok_sound content 0 (-32767) [] t hbuild
  rcases hsound with ⟨ht, hsf, _⟩
  simp only [List.nil_append] at ht
  have hc : List.Chain' (fun a b => a.h < b.h) t := by
    rw [ht]; exact strictFrom_chain _ _ hsf
  have hfl : firstRow.h ≤ lastRow.h :=
    chain'_head_le hc hh lastRow (getLast?_mem_of_eq hl)
  have hbelow : ∀ h : ℤ, h < firstRow.h →
      colorLookup t h = some { r := firstRow.r, g := firstRow.g, b := firstRow.b } := by
    intro h hlt
    simp only [colorLookup, hh, hl]
    rw [buildColorMapping_below hc hh hl hlt]
    simp [hlt]
  have habove : ∀ h : ℤ, lastRow.h < h →
      colorLookup t h = some { r := lastRow.r, g := lastRow.g, b := lastRow.b } := by
    intro h hgt
    simp only [colorLookup, hh, hl]
    rw [buildColorMapping_above hc hl hgt]
    have h1 : ¬ h < firstRow.h := by omega
    simp [h1, hgt]
  have hexact : ∀ row ∈ t, colorLookup t row.h = some { r := row.r, g := row.g, b := row.b } := by
    intro row hrow
    rcases mem_last_or_pair hrow with ⟨row', hm⟩ | hlast
    · have hlt : row.h < row'.h := chain'_pair_lt hc hm
      simp only [colorLookup, hh, hl]
      rw [buildColorMapping_cov hc hl hm (le_refl _) hlt, interpColor_left]
    · have : lastRow = row := by
        rw [hlast] at hl
        exact (Option.some.inj hl).symm
      subst this
      simp only [colorLookup, hh, hl]
      rw [buildColorMapping_at_last hc hl]
  have hgap : ∀ r0 r1, (r0, r1) ∈ t.zip (t.drop 1) → ∀ h : ℤ, r0.h < h → h < r1.h →
      colorLookup t h = some (interpColor r0 r1 h) := by
    intro r0 r1 hm h hlt0 hlt1
    simp only [colorLookup, hh, hl]
    rw [buildColorMapping_cov hc hl hm (le_of_lt hlt0) hlt1]
  refine ⟨hbelow, habove, hexact, hgap, ?_⟩
  intro h hle hge
  rcases eq_or_lt_of_le hge with heq | hlt
  · rw [heq]
    simp only [colorLookup, hh, hl]
    rw [buildColorMapping_at_last hc hl]
    rfl
  · have ⟨r0, r1, hm, hle', hlt'⟩ := exists_cov h hc hh hl hle hlt
    simp only [colorLookup, hh, hl]
    rw [buildColorMapping_cov hc hl hm hle' hlt']
    rfl

/-- Witness for C4: a concrete two-row table, built successfully, with its
total lookup. -/
theorem color_lookup_total_witness :
    (∀ h : ℤ, h < ({ h := 0, r := 0, g := 0, b := 1 } : ColorRecord).h →
      colorLookup [{ h := 0, r := 0, g := 0, b := 1 }, { h := 2, r := 1, g := 1, b := 0 }] h =
        some { r := 0, g := 0, b := 1 }) ∧
    (∀ h : ℤ, ({ h := 2, r := 1, g := 1, b := 0 } : ColorRecord).h < h →
      colorLookup [{ h := 0, r := 0, g := 0, b := 1 }, { h := 2, r := 1, g := 1, b := 0 }] h =
        some { r := 1, g := 1, b := 0 }) ∧
    (∀ row ∈ [({ h := 0, r := 0, g := 0, b := 1 } : ColorRecord), { h := 2, r := 1, g := 1, b := 0 }],
      colorLookup [{ h := 0, r := 0, g := 0, b := 1 }, { h := 2, r := 1, g := 1, b := 0 }] row.h =
        some { r := row.r, g := row.g, b := row.b }) ∧
    (∀ r0 r1, (r0, r1) ∈
        ([({ h := 0, r := 0, g := 0, b := 1 } : ColorRecord), { h := 2, r := 1, g := 1, b := 0 }]).zip
          (([({ h := 0, r := 0, g := 0, b := 1 } : ColorRecord), { h := 2, r := 1, g := 1, b := 0 }]).drop 1) →
      ∀ h : ℤ, r0.h < h → h < r1.h →
      colorLookup [{ h := 0, r := 0, g := 0, b := 1 }, { h := 2, r := 1, g := 1, b := 0 }] h =
        some (interpColor r0 r1 h)) ∧
    (∀ h : ℤ, ({ h := 0, r := 0, g := 0, b := 1 } : ColorRecord).h ≤ h →
      h ≤ ({ h := 2, r := 1, g := 1, b := 0 } : ColorRecord).h →
      (colorLookup [{ h := 0, r := 0, g := 0, b := 1 }, { h := 2, r := 1, g := 1, b := 0 }] h).isSome = true) :=
  color_lookup_total
    [some { h := 0, r := 0, g := 0, b := 1 }, some { h := 2, r := 1, g := 1, b := 0 }]
    [{ h := 0, r := 0, g := 0, b := 1 }, { h := 2, r := 1, g := 1, b := 0 }]
    { h := 0, r := 0, g := 0, b := 1 } { h := 2, r := 1, g := 1, b := 0 }
    (by norm_num [buildColorTable, buildColorTableAux]; intro h; simp at h) rfl rfl

/-- `TileID` from src/input/types.rs (`CoordInt = i16` embedded as `ℤ`). -/
structure TileID where
  lon : ℤ
  lat : ℤ
deriving DecidableEq, Repr

/-- The tile id produced for sequence number `count` by `TileID::next`
(src/input/types.rs lines 26-37): `lon = count/180 - 180`,
`lat = count%180 - 90`. -/
def tileFromCount (count : ℕ) : TileID :=
  { lon := ((count / 180 : ℕ) : ℤ) - 180, lat := ((count % 180 : ℕ) : ℤ) - 90 }

/-- The sequence of tile ids collectively drained from the shared atomic
counter by the workers: every `count < limit` is claimed exactly once,
regardless of the number of workers. -/
def tileSeq (limit : ℕ) : List TileID :=
  (List.range limit).map tileFromCount

/-- `DemArc3SecOpts` (src/input/dem/arcsec3.rs): configured nodata and
sea-level values (`HeightInt = i16` embedded as `ℤ`). -/
structure DemArc3SecOpts where
  nodata : ℤ
  sea_level : ℤ
deriving DecidableEq, Repr

/-- `DemArc3SecOpts::new_opts`: defaults nodata = -32767, sea_level = 0. -/
def newOpts (nodata sea_level : Option ℤ) : DemArc3SecOpts :=
  { nodata := nodata.getD (-32767), sea_level := sea_level.getD 0 }

/-- `DemArc3SecOpts::find_tile_id` (src/input/dem/arcsec3.rs lines 45-51):
floor-division of the geographic point (`self` is unused by the source). -/
def find_tile_id (geo_point : GeoPoint) : TileID :=
  { lon := ⌊geo_point.lon⌋, lat := ⌊geo_point.lat⌋ }

/-- `DemArc3SecOpts::get_max_number_of_tiles`. -/
def get_max_number_of_tiles : ℕ := 180 * 360

/-- Outcome of running code that may hit a Rust `panic` (array indexing out
of bounds): `crash` is the panic, `ok` a normal return. -/
inductive RunResult (α : Type) where
  | crash
  | ok (val : α)
deriving DecidableEq, Repr

/-- `i16::from_be` of the big-endian byte pair value `n` (two's complement). -/
def toI16 (n : ℕ) : ℤ :=
  if n < 32768 then (n : ℤ) else (n : ℤ) - 65536

/-- `vec_u8_to_i16` (src/common/util.rs lines 11-31): reinterpret consecutive
byte pairs as big-endian signed 16-bit samples.  The odd-length `panic` branch
is outside every call site here (the file size check guarantees an even
length), so the embedding simply ignores a trailing odd byte. -/
def vec_u8_to_i16 : List ℕ → List ℤ
  | b0 :: b1 :: rest => toI16 (b0 * 256 + b1) :: vec_u8_to_i16 rest
  | _ => []

theorem vec_u8_to_i16_length : ∀ (l : List ℕ), (vec_u8_to_i16 l).length = l.length / 2
  | [] => rfl
  | [_] => by simp [vec_u8_to_i16]
  | _ :: _ :: rest => by
      show (vec_u8_to_i16 rest).length + 1 = _
      rw [vec_u8_to_i16_length rest]
      show rest.length / 2 + 1 = (rest.length + 1 + 1) / 2
      omega

/-- `DemArc3SecData` (src/input/dem/arcsec3.rs lines 60-65). -/
structure DemArc3SecData where
  lon_left : ℤ
  lat_bottom : ℤ
  tile : DemArc3SecOpts
  dem_data : Option (List ℤ)

/-- `DemArc3SecData::get_dem_height` (src/input/dem/arcsec3.rs lines 69-71):
`None` when no data is loaded; indexing `data[j*1201+i]` panics (`crash`)
when out of bounds. -/
def get_dem_height (d : DemArc3SecData) (i j : ℕ) : RunResult (Option ℤ) :=
  match d.dem_data with
  | none => .ok none
  | some data =>
      if h : j * 1201 + i < data.length then .ok (some (data.get ⟨j * 1201 + i, h⟩))
      else .crash

/-- `DemArc3SecData::calc_height` (src/input/dem/arcsec3.rs lines 74-96):
`None` outside the tile's extent, else the nearest-sample lookup at cell
`(i, 1200-j)` with the nodata sentinel replaced by the configured sea level
(missing data likewise maps to sea level). -/
def calc_height (d : DemArc3SecData) (geo_point : GeoPoint) : RunResult (Option ℚ) :=
  if geo_point.lon < (d.lon_left : ℚ) ∨ ((1 + d.lon_left : ℤ) : ℚ) ≤ geo_point.lon
      ∨ geo_point.lat < (d.lat_bottom : ℚ) ∨ ((1 + d.lat_bottom : ℤ) : ℚ) ≤ geo_point.lat then
    .ok none
  else
    let x := geo_point.lon - (d.lon_left : ℚ)
    let y := geo_point.lat - (d.lat_bottom : ℚ)
    let i := (x * 1200).floor.toNat
    let j := (y * 1200).floor.toNat
    match get_dem_height d i (1200 - j) with
    | .crash => .crash
    | .ok hval =>
        .ok (some (((match hval with
          | some h_int => if h_int = d.tile.nodata then d.tile.sea_level else h_int
          | none => d.tile.sea_level) : ℤ) : ℚ))

/-- C10: for a tile whose sample array has exactly `1201*1201` entries (as
guaranteed by the load-time size check `2_884_802 = 2*1201*1201` bytes) and
any geographic point inside the tile's `[lon,lon+1) x [lat,lat+1)` extent,
the cell indices satisfy `i, j ≤ 1199`, the flattened index
`(1200-j)*1201 + i` is strictly in bounds, and `calc_height` returns a value
(no panic, no `None`). -/
theorem calc_height_safe (d : DemArc3SecData) (data : List ℤ) (geo_point : GeoPoint)
    (hdata : d.dem_data = some data) (hlen : data.length = 1201 * 1201)
    (h1 : (d.lon_left : ℚ) ≤ geo_point.lon)
    (h2 : geo_point.lon < ((1 + d.lon_left : ℤ) : ℚ))
    (h3 : (d.lat_bottom : ℚ) ≤ geo_point.lat)
    (h4 : geo_point.lat < ((1 + d.lat_bottom : ℤ) : ℚ)) :
    ((geo_point.lon - (d.lon_left : ℚ)) * 1200).floor.toNat ≤ 1199 ∧
    ((geo_point.lat - (d.lat_bottom : ℚ)) * 1200).floor.toNat ≤ 1199 ∧
    (1200 - ((geo_point.lat - (d.lat_bottom : ℚ)) * 1200).floor.toNat) * 1201
      + ((geo_point.lon - (d.lon_left : ℚ)) * 1200).floor.toNat < 1201 * 1201 ∧
    ∃ hgt : ℚ, calc_height d geo_point = .ok (some hgt) := by
  have hx0 : (0 : ℚ) ≤ geo_point.lon - (d.lon_left : ℚ) := by linarith
  have hx1 : geo_point.lon - (d.lon_left : ℚ) < 1 := by
    have : ((1 + d.lon_left : ℤ) : ℚ) = 1 + (d.lon_left : ℚ) := by push_cast; ring
    linarith [this ▸ h2]
  have hy0 : (0 : ℚ) ≤ geo_point.lat - (d.lat_bottom : ℚ) := by linarith
  have hy1 : geo_point.lat - (d.lat_bottom : ℚ) < 1 := by
    have : ((1 + d.lat_bottom : ℤ) : ℚ) = 1 + (d.lat_bottom : ℚ) := by push_cast; ring
    linarith [this ▸ h4]
  have hif : ∀ q : ℚ, 0 ≤ q → q < 1 → (q * 1200).floor.toNat ≤ 1199 := by
    intro q hq0 hq1
    have hfl : (q * 1200).floor ≤ 1199 := by
      have : q * 1200 < 1200 := by linarith
      have := Int.floor_le_iff.mpr (by push_cast; linarith : q * 1200 < (1199 : ℤ) + 1)
      exact this
    omega
  have hi := hif _ hx0 hx1
  have hj := hif _ hy0 hy1
  refine ⟨hi, hj, by omega, ?_⟩
  have hcond : ¬(geo_point.lon < (d.lon_left : ℚ) ∨ ((1 + d.lon_left : ℤ) : ℚ) ≤ geo_point.lon
      ∨ geo_point.lat < (d.lat_bottom : ℚ) ∨ ((1 + d.lat_bottom : ℤ) : ℚ) ≤ geo_point.lat) := by
    push_neg
    exact ⟨by linarith, h2, by linarith, h4⟩
  rw [calc_height, if_neg hcond]
  have hidx : (1200 - ((geo_point.lat - (d.lat_bottom : ℚ)) * 1200).floor.toNat) * 1201
      + ((geo_point.lon - (d.lon_left : ℚ)) * 1200).floor.toNat < data.length := by
    rw [hlen]; omega
  simp only [get_dem_height, hdata]
  rw [dif_pos hidx]
  exact ⟨_, rfl⟩

set_option maxRecDepth 4000 in
/-- Witness for C10: a fully populated `1201*1201` tile at the origin and the
in-extent point `(0.5, 0.5)`. -/
theorem calc_height_safe_witness :
    ((((1:ℚ)/2) - ((0 : ℤ) : ℚ)) * 1200).floor.toNat ≤ 1199 ∧
    ((((1:ℚ)/2) - ((0 : ℤ) : ℚ)) * 1200).floor.toNat ≤ 1199 ∧
    (1200 - ((((1:ℚ)/2) - ((0 : ℤ) : ℚ)) * 1200).floor.toNat) * 1201
      + ((((1:ℚ)/2) - ((0 : ℤ) : ℚ)) * 1200).floor.toNat < 1201 * 1201 ∧
    ∃ hgt : ℚ, calc_height
      { lon_left := 0, lat_bottom := 0, tile := { nodata := -32767, sea_level := 0 },
        dem_data := some (List.replicate (1201 * 1201) 0) }
      { lon := 1/2, lat := 1/2 } = .ok (some hgt) :=
  calc_height_safe
    { lon_left := 0, lat_bottom := 0, tile := { nodata := -32767, sea_level := 0 },
      dem_data := some (List.replicate (1201 * 1201) 0) }
    (List.replicate (1201 * 1201) 0) { lon := 1/2, lat := 1/2 }
    rfl (List.length_replicate _ _) (by norm_num) (by norm_num) (by norm_num) (by norm_num)

/-- An entry of the abstract filesystem: `meta` is the file size reported by
`metadata()` (`none` = metadata error), `content` the bytes returned by
`fs::read` (`none` = read error). -/
structure FsEntry where
  meta : Option ℕ
  content : Option (List ℕ)

/-- Rust `format!("{:02}", n)`: pad to at least two digits. -/
def pad2 (n : ℕ) : String :=
  if n < 10 then "0" ++ toString n else toString n

/-- Rust `format!("{:03}", n)`: pad to at least three digits. -/
def pad3 (n : ℕ) : String :=
  if n < 10 then "00" ++ toString n
  else if n < 100 then "0" ++ toString n
  else toString n

/-- The `.hgt` file name built by `DemArc3SecData::load` from the tile's
south-west corner: `{N|S}{lat:02}{E|W}{lon:03}.hgt`
(src/input/dem/arcsec3.rs lines 107-121). -/
def demFileName (tile_id : TileID) : String :=
  let vert_hemisphere :=
    if tile_id.lat ≥ 0 then "N" ++ pad2 tile_id.lat.toNat
    else "S" ++ pad2 (-tile_id.lat).toNat
  let horz_hemisphere :=
    if tile_id.lon ≥ 0 then "E" ++ pad3 tile_id.lon.toNat
    else "W" ++ pad3 (-tile_id.lon).toNat
  vert_hemisphere ++ horz_hemisphere ++ ".hgt"

/-- `Path::new(dir_path).join(file_name)`. -/
def demTilePath (dir_path : String) (tile_id : TileID) : String :=
  dir_path ++ "/" ++ demFileName tile_id

/-- `DEM_FILE_SIZE` (src/input/dem/arcsec3.rs line 11). -/
def DEM_FILE_SIZE : ℕ := 2884802

/-- `DemArc3SecData::load` (src/input/dem/arcsec3.rs lines 99-152) over the
abstract filesystem `fs` (`none` = file does not exist): out-of-range tile
ids are rejected before any filesystem access; a missing file is `Ok(None)`;
a wrong size, metadata failure or read failure is `Err`; otherwise the bytes
are decoded into big-endian 16-bit samples. -/
def demArc3Load (fs : String → Option FsEntry) (dir_path : String)
    (tile : DemArc3SecOpts) (tile_id : TileID) :
    Except String (Option DemArc3SecData) :=
  if tile_id.lon < -180 ∨ tile_id.lon ≥ 180 ∨ tile_id.lat < -90 ∨ tile_id.lat ≥ 90 then
    .error ("Invalid tile specification: TileId (" ++ toString tile_id.lon ++ ", "
      ++ toString tile_id.lat ++ ")")
  else
    match fs (demTilePath dir_path tile_id) with
    | none => .ok none
    | some entry =>
        match entry.meta with
        | none => .error ("Can't get metadata of " ++ demTilePath dir_path tile_id)
        | some len =>
            if len ≠ DEM_FILE_SIZE then
              .error ("Invalid file size of TileId (" ++ toString tile_id.lon ++ ", "
                ++ toString tile_id.lat ++ "): " ++ toString len)
            else
              match entry.content with
              | none => .error ("Error reading tile TileId (" ++ toString tile_id.lon
                  ++ ", " ++ toString tile_id.lat ++ ")")
              | some data_u8 =>
                  .ok (some { lon_left := tile_id.lon, lat_bottom := tile_id.lat,
                              tile := tile, dem_data := some (vec_u8_to_i16 data_u8) })

/-- C6: the arc-second tile load returns `Err` for every out-of-range tile id
without touching the filesystem (the result is identical for every filesystem
oracle); for in-range ids it returns `Ok(None)` exactly when the `.hgt` file
named from the south-west corner is absent; and it returns `Err` when the
file exists but metadata fails, the size differs from 2,884,802 bytes, or
the content cannot be read. -/
theorem demArc3Load_spec (fs fs' : String → Option FsEntry) (dir_path : String)
    (tile : DemArc3SecOpts) (tile_id : TileID) :
    ((tile_id.lon < -180 ∨ tile_id.lon ≥ 180 ∨ tile_id.lat < -90 ∨ tile_id.lat ≥ 90) →
      (∃ e, demArc3Load fs dir_path tile tile_id = .error e) ∧
      demArc3Load fs' dir_path tile tile_id = demArc3Load fs dir_path tile tile_id) ∧
    (¬(tile_id.lon < -180 ∨ tile_id.lon ≥ 180 ∨ tile_id.lat < -90 ∨ tile_id.lat ≥ 90) →
      ((demArc3Load fs dir_path tile tile_id = .ok none) ↔
        fs (demTilePath dir_path tile_id) = none) ∧
      (∀ entry, fs (demTilePath dir_path tile_id) = some entry →
        (entry.meta = none →
          ∃ e, demArc3Load fs dir_path tile tile_id = .error e) ∧
        (∀ len, entry.meta = some len → len ≠ DEM_FILE_SIZE →
          ∃ e, demArc3Load fs dir_path tile tile_id = .error e) ∧
        (entry.meta = some DEM_FILE_SIZE → entry.content = none →
          ∃ e, demArc3Load fs dir_path tile tile_id = .error e))) := by
  constructor
  · intro hout
    rw [demArc3Load, if_pos hout, demArc3Load, if_pos hout]
    exact ⟨⟨_, rfl⟩, rfl⟩
  · intro hin
    constructor
    · rw [demArc3Load, if_neg hin]
      rcases hfs : fs (demTilePath dir_path tile_id) with _ | entry
      · simp
      · simp only [hfs]
        constructor
        · intro hcontra
          exfalso
          rcases entry with ⟨_ | len, _ | bytes⟩
          · exact absurd hcontra (by simp)
          · exact absurd hcontra (by simp)
          · dsimp only at hcontra
            split at hcontra <;> simp at hcontra
          · dsimp only at hcontra
            split at hcontra <;> simp at hcontra
        · intro hcontra
          simp at hcontra
    · intro entry hfs
      refine ⟨?_, ?_, ?_⟩
      · intro hmeta
        rw [demArc3Load, if_neg hin]
        simp only [hfs, hmeta]
        exact ⟨_, rfl⟩
      · intro len hmeta hsz
        rw [demArc3Load, if_neg hin]
        simp only [hfs, hmeta]
        split
        · exact ⟨_, rfl⟩
        · rename_i hns
          exact absurd hsz hns
      · intro hmeta hcontent
        rw [demArc3Load, if_neg hin]
        simp only [hfs, hmeta, hcontent]
        split
        · exact ⟨_, rfl⟩
        · exact ⟨_, rfl⟩

/-- Witness for C6: the out-of-range tile id `(200, 0)` is rejected
identically under two different filesystem oracles. -/
theorem demArc3Load_spec_witness :
    (∃ e, demArc3Load (fun _ => none) "dem" { nodata := -32767, sea_level := 0 }
      { lon := 200, lat := 0 } = .error e) ∧
    demArc3Load (fun _ => some { meta := some 0, content := none }) "dem"
      { nodata := -32767, sea_level := 0 } { lon := 200, lat := 0 } =
    demArc3Load (fun _ => none) "dem" { nodata := -32767, sea_level := 0 }
      { lon := 200, lat := 0 } :=
  (demArc3Load_spec (fun _ => none) (fun _ => some { meta := some 0, content := none })
    "dem" { nodata := -32767, sea_level := 0 } { lon := 200, lat := 0 }).1
    (by simp only []; omega)

/-- `Model::create_geopoints_tiles` (src/model/types.rs lines 92-103): the
tile dispatcher, as the map from a tile id to the ordered group of
`(lattice index, point)` pairs whose `find_tile_id` is that tile (the Rust
`HashMap` has an entry exactly for the tiles whose group is nonempty). -/
def createGeopointsTiles (geopoints : List (ℕ × GeoPoint)) :
    TileID → List (ℕ × GeoPoint) :=
  fun tile_id => geopoints.filter (fun kp => find_tile_id kp.2 = tile_id)

/-- Outcome of `load_tile_data` for one tile, with a successfully loaded tile
abstracted by its `calc_height` behaviour (the only way the sampling loop
uses the `TileData` trait object). -/
inductive LoadOutcome where
  | err (e : String)
  | absent
  | tile (calcH : GeoPoint → Option ℚ)

/-- The shared mutable state of `Model::create_with_color`
(src/model/types.rs, `MutexStruct`): heights and colors maps. -/
structure ColorPassState where
  heights : ℕ → Option ℚ
  colors : ℕ → Option RGB

/-- Processing of one tile id by a worker of `Model::create_with_color`
(src/model/types.rs lines 226-258): skip if the tile has no point group or
the tile load fails (`Err` is logged, `Ok(None)` ignored); otherwise sample
every point of the group (skipping points outside the tile) and merge the
local buffers into the shared maps. -/
def processTileColor (groups : TileID → List (ℕ × GeoPoint))
    (load : TileID → LoadOutcome) (color_mapping : ℤ → RGB)
    (st : ColorPassState) (tile_id : TileID) : ColorPassState :=
  let tile_geopoints := groups tile_id
  if tile_geopoints.isEmpty then st
  else
    match load tile_id with
    | .err _ => st
    | .absent => st
    | .tile calcH =>
        tile_geopoints.foldl (fun s kp =>
          match calcH kp.2 with
          | none => s
          | some h =>
              { heights := Function.update s.heights kp.1 (some h)
                colors := Function.update s.colors kp.1 (some (color_mapping ⌊h⌋)) }) st

/-- `Model::create_with_color` sampling pass (src/model/types.rs lines
190-270): heights pre-seeded to `0.0` and colors to the color of the
configured sea level for every key `k < 2*(model_size+1)*(model_size+1)-1`,
then every tile id of the shared sequence processed exactly once (the order
is immaterial: the per-tile key sets are disjoint). -/
def createWithColorPass (model_size : ℕ) (geopoints : List (ℕ × GeoPoint))
    (load : TileID → LoadOutcome) (color_mapping : ℤ → RGB) (sea_level : ℤ)
    (tiles_limit : ℕ) : ColorPassState :=
  let heights0 : ℕ → Option ℚ :=
    fun k => if k < 2 * (model_size + 1) * (model_size + 1) - 1 then some 0 else none
  let colors0 : ℕ → Option RGB :=
    fun k => if k < 2 * (model_size + 1) * (model_size + 1) - 1
             then some (color_mapping sea_level) else none
  (tileSeq tiles_limit).foldl
    (processTileColor (createGeopointsTiles geopoints) load color_mapping)
    { heights := heights0, colors := colors0 }

/-- Processing of one tile id by a worker of `Model::create_with_texture`
(src/model/types.rs lines 152-178): identical to the color pass but only
heights are sampled. -/
def processTileTexture (groups : TileID → List (ℕ × GeoPoint))
    (load : TileID → LoadOutcome)
    (heights : ℕ → Option ℚ) (tile_id : TileID) : ℕ → Option ℚ :=
  let tile_geopoints := groups tile_id
  if tile_geopoints.isEmpty then heights
  else
    match load tile_id with
    | .err _ => heights
    | .absent => heights
    | .tile calcH =>
        tile_geopoints.foldl (fun s kp =>
          match calcH kp.2 with
          | none => s
          | some h => Function.update s kp.1 (some h)) heights

/-- `Model::create_with_texture` sampling pass (src/model/types.rs lines
129-187): heights pre-seeded to `0.0` for every key
`k < 2*(model_size+1)*(model_size+1)-1`, then every tile id of the shared
sequence processed exactly once. -/
def createWithTexturePass (model_size : ℕ) (geopoints : List (ℕ × GeoPoint))
    (load : TileID → LoadOutcome) (tiles_limit : ℕ) : ℕ → Option ℚ :=
  let heights0 : ℕ → Option ℚ :=
    fun k => if k < 2 * (model_size + 1) * (model_size + 1) - 1 then some 0 else none
  (tileSeq tiles_limit).foldl
    (processTileTexture (createGeopointsTiles geopoints) load) heights0

theorem foldl_sample_preserve_color (calcH : GeoPoint → Option ℚ) (cm : ℤ → RGB)
    (pts : List (ℕ × GeoPoint)) (st : ColorPassState) (k : ℕ)
    (hk : ∀ kp ∈ pts, kp.1 ≠ k) :
    ((pts.foldl (fun s kp => match calcH kp.2 with
        | none => s
        | some h =>
            { heights := Function.update s.heights kp.1 (some h)
              colors := Function.update s.colors kp.1 (some (cm ⌊h⌋)) }) st).heights k
      = st.heights k) ∧
    ((pts.foldl (fun s kp => match calcH kp.2 with
        | none => s
        | some h =>
            { heights := Function.update s.heights kp.1 (some h)
              colors := Function.update s.colors kp.1 (some (cm ⌊h⌋)) }) st).colors k
      = st.colors k) := by
  induction pts generalizing st with
  | nil => exact ⟨rfl, rfl⟩
  | cons kp rest ih =>
      have hne : kp.1 ≠ k := hk kp (by simp)
      have hrest : ∀ kp' ∈ rest, kp'.1 ≠ k :=
        fun kp' h' => hk kp' (List.mem_cons_of_mem _ h')
      rw [List.foldl_cons]
      rcases hc : calcH kp.2 with _ | h
      · simp only [hc]
        exact ih st hrest
      · simp only [hc]
        have := ih { heights := Function.update st.heights kp.1 (some h)
                     colors := Function.update st.colors kp.1 (some (cm ⌊h⌋)) } hrest
        rcases this with ⟨h1, h2⟩
        refine ⟨?_, ?_⟩
        · rw [h1]
          exact Function.update_noteq (fun hkk => hne hkk.symm) _ _
        · rw [h2]
          exact Function.update_noteq (fun hkk => hne hkk.symm) _ _

theorem processTileColor_preserve (groups : TileID → List (ℕ × GeoPoint))
    (load : TileID → LoadOutcome) (cm : ℤ → RGB) (st : ColorPassState)
    (tile_id : TileID) (k : ℕ)
    (hk : ∀ calcH, load tile_id = .tile calcH → ∀ kp ∈ groups tile_id, kp.1 ≠ k) :
    ((processTileColor groups load cm st tile_id).heights k = st.heights k) ∧
    ((processTileColor groups load cm st tile_id).colors k = st.colors k) := by
  rw [processTileColor]
  split
  · exact ⟨rfl, rfl⟩
  · rcases hload : load tile_id with e | _ | calcH
    · exact ⟨rfl, rfl⟩
    · exact ⟨rfl, rfl⟩
    · exact foldl_sample_preserve_color calcH cm _ st k (hk calcH hload)

theorem colorPass_preserve (groups : TileID → List (ℕ × GeoPoint))
    (load : TileID → LoadOutcome) (cm : ℤ → RGB)
    (tids : List TileID) (st : ColorPassState) (k : ℕ)
    (hk : ∀ tid ∈ tids, ∀ calcH, load tid = .tile calcH → ∀ kp ∈ groups tid, kp.1 ≠ k) :
    ((tids.foldl (processTileColor groups load cm) st).heights k = st.heights k) ∧
    ((tids.foldl (processTileColor groups load cm) st).colors k = st.colors k) := by
  induction tids generalizing st with
  | nil => exact ⟨rfl, rfl⟩
  | cons tid rest ih =>
      rw [List.foldl_cons]
      have hstep := processTileColor_preserve groups load cm st tid k
        (hk tid (by simp))
      have hrest := ih (processTileColor groups load cm st tid)
        (fun tid' h' => hk tid' (List.mem_cons_of_mem _ h'))
      exact ⟨hrest.1.trans hstep.1, hrest.2.trans hstep.2⟩

theorem foldl_sample_preserve_texture (calcH : GeoPoint → Option ℚ)
    (pts : List (ℕ × GeoPoint)) (hts : ℕ → Option ℚ) (k : ℕ)
    (hk : ∀ kp ∈ pts, kp.1 ≠ k) :
    (pts.foldl (fun s kp => match calcH kp.2 with
        | none => s
        | some h => Function.update s kp.1 (some h)) hts) k = hts k := by
  induction pts generalizing hts with
  | nil => rfl
  | cons kp rest ih =>
      have hne : kp.1 ≠ k := hk kp (by simp)
      have hrest : ∀ kp' ∈ rest, kp'.1 ≠ k :=
        fun kp' h' => hk kp' (List.mem_cons_of_mem _ h')
      rw [List.foldl_cons]
      rcases hc : calcH kp.2 with _ | h
      · simp only [hc]
        exact ih hts hrest
      · simp only [hc]
        rw [ih _ hrest]
        exact Function.update_noteq (fun hkk => hne hkk.symm) _ _

theorem processTileTexture_preserve (groups : TileID → List (ℕ × GeoPoint))
    (load : TileID → LoadOutcome) (hts : ℕ → Option ℚ)
    (tile_id : TileID) (k : ℕ)
    (hk : ∀ calcH, load tile_id = .tile calcH → ∀ kp ∈ groups tile_id, kp.1 ≠ k) :
    processTileTexture groups load hts tile_id k = hts k := by
  rw [processTileTexture]
  split
  · rfl
  · rcases hload : load tile_id with e | _ | calcH
    · rfl
    · rfl
    · exact foldl_sample_preserve_texture calcH _ hts k (hk calcH hload)

theorem texturePass_preserve (groups : TileID → List (ℕ × GeoPoint))
    (load : TileID → LoadOutcome)
    (tids : List TileID) (hts : ℕ → Option ℚ) (k : ℕ)
    (hk : ∀ tid ∈ tids, ∀ calcH, load tid = .tile calcH → ∀ kp ∈ groups tid, kp.1 ≠ k) :
    (tids.foldl (processTileTexture groups load) hts) k = hts k := by
  induction tids generalizing hts with
  | nil => rfl
  | cons tid rest ih =>
      rw [List.foldl_cons]
      rw [ih _ (fun tid' h' => hk tid' (List.mem_cons_of_mem _ h'))]
      exact processTileTexture_preserve groups load hts tid k (hk tid (by simp))

theorem colorPass_failed_tile_defaults (model_size : ℕ)
    (geopoints : List (ℕ × GeoPoint)) (load : TileID → LoadOutcome)
    (color_mapping : ℤ → RGB) (sea_level : ℤ) (tiles_limit k : ℕ)
    (hseed : k < 2 * (model_size + 1) * (model_size + 1) - 1)
    (hfail : ∀ gp, (k, gp) ∈ geopoints →
      ∀ calcH, load (find_tile_id gp) ≠ .tile calcH) :
    (createWithColorPass model_size geopoints load color_mapping sea_level
      tiles_limit).heights k = some 0 ∧
    (createWithColorPass model_size geopoints load color_mapping sea_level
      tiles_limit).colors k = some (color_mapping sea_level) := by
  have hpres := colorPass_preserve (createGeopointsTiles geopoints) load color_mapping
    (tileSeq tiles_limit)
    { heights := fun k => if k < 2 * (model_size + 1) * (model_size + 1) - 1
                          then some 0 else none
      colors := fun k => if k < 2 * (model_size + 1) * (model_size + 1) - 1
                         then some (color_mapping sea_level) else none } k ?_
  · rw [createWithColorPass]
    refine ⟨hpres.1.trans ?_, hpres.2.trans ?_⟩
    · simp only [if_pos hseed]
    · simp only [if_pos hseed]
  · intro tid _ calcH hload kp hkp
    intro hk1
    rcases kp with ⟨k', gp⟩
    simp only at hk1
    subst hk1
    have hmem := (List.mem_filter.mp hkp)
    have htid : find_tile_id gp = tid := by
      have := hmem.2
      simpa using this
    exact hfail gp hmem.1 calcH (htid ▸ hload)

/-- C3 (amended): in the color sampling pass, every seeded lattice point whose
every occurrence has a tile that fails to load (file missing, `Ok(None)`, or
load error, `Err`) keeps its pre-seeded defaults: height `0.0` (the literal
seed, which equals the configured sea level only when that is 0) and the
color of the configured sea-level elevation; the pass always runs to
completion, for any configured sea level. -/
theorem sampling_failed_tile_defaults (model_size : ℕ)
    (geopoints : List (ℕ × GeoPoint)) (load : TileID → LoadOutcome)
    (color_mapping : ℤ → RGB) (sea_level : ℤ) (tiles_limit k : ℕ)
    (hseed : k < 2 * (model_size + 1) * (model_size + 1) - 1)
    (hfail : ∀ gp, (k, gp) ∈ geopoints →
      ∀ calcH, load (find_tile_id gp) ≠ .tile calcH) :
    (createWithColorPass model_size geopoints load color_mapping sea_level
      tiles_limit).heights k = some 0 ∧
    (createWithColorPass model_size geopoints load color_mapping sea_level
      tiles_limit).colors k = some (color_mapping sea_level) :=
  colorPass_failed_tile_defaults model_size geopoints load color_mapping
    sea_level tiles_limit k hseed hfail

/-- C3 counterexample: with configured sea level 5 and the single point's
tile absent, the point's final height is the literal seed `0.0`, not the
configured sea-level height `5`. -/
theorem sampling_seed_not_sea_level_cex :
    (createWithColorPass 0 [(0, { lon := 1/2, lat := 1/2 })] (fun _ => .absent)
      (fun _ => { r := 0, g := 0, b := 0 }) 5 (180 * 360)).heights 0 = some 0 ∧
    some (0 : ℚ) ≠ some ((5 : ℤ) : ℚ) := by
  constructor
  · exact (colorPass_failed_tile_defaults 0 [(0, { lon := 1/2, lat := 1/2 })]
      (fun _ => .absent) (fun _ => { r := 0, g := 0, b := 0 }) 5 (180 * 360) 0
      (by norm_num)
      (fun gp _ calcH hload => absurd hload (by simp))).1
  · intro hcontra
    have : (0 : ℚ) = ((5 : ℤ) : ℚ) := Option.some.inj hcontra
    norm_num at this

/-- Witness for the amended C3 theorem: one seeded point whose tile is
absent. -/
theorem sampling_failed_tile_defaults_witness :
    (createWithColorPass 0 [(0, { lon := 1/2, lat := 1/2 })] (fun _ => .absent)
      (fun _ => { r := 1, g := 0, b := 0 }) 7 (180 * 360)).heights 0 = some 0 ∧
    (createWithColorPass 0 [(0, { lon := 1/2, lat := 1/2 })] (fun _ => .absent)
      (fun _ => { r := 1, g := 0, b := 0 }) 7 (180 * 360)).colors 0 =
      some ((fun _ : ℤ => ({ r := 1, g := 0, b := 0 } : RGB)) 7) :=
  sampling_failed_tile_defaults 0 [(0, { lon := 1/2, lat := 1/2 })]
    (fun _ => .absent) (fun _ => { r := 1, g := 0, b := 0 }) 7 (180 * 360) 0
    (by norm_num)
    (fun gp _ calcH hload => by exact absurd hload (by simp))

theorem length_flatMap_pair (l : List ℕ) (f g : ℕ → GeoPoint) :
    (l.flatMap (fun i => [f i, g i])).length = 2 * l.length := by
  induction l with
  | nil => rfl
  | cons a rest ih =>
      rw [List.flatMap_cons]
      simp only [List.length_append, List.length_cons, List.length_nil, ih]
      omega

theorem objRing_length (j_spacing : ℚ) (gnn : ℕ) (st : ObjPointsState) (j : ℕ) :
    (objRing j_spacing gnn st j).geopoints.length
      = st.geopoints.length + 8 * (gnn - j) := by
  rw [objRing]
  simp only [List.length_append, length_flatMap_pair, List.length_range]
  omega

theorem objRing_foldl_length (j_spacing : ℚ) (gnn : ℕ) :
    ∀ (m : ℕ) (st : ObjPointsState), m ≤ gnn - 1 →
      ((List.range' 1 m).foldl (objRing j_spacing gnn) st).geopoints.length
        = st.geopoints.length + 4 * m * (2 * gnn - m - 1) := by
  intro m
  induction m with
  | zero => intro st _; simp
  | succ m ih =>
      intro st hm
      have hm' : m ≤ gnn - 1 := by omega
      rw [List.range'_concat 1 m, List.foldl_append]
      simp only [List.foldl_cons, List.foldl_nil]
      rw [objRing_length, ih st hm']
      obtain ⟨r, hr⟩ : ∃ r, gnn = m + 2 + r := ⟨gnn - m - 2, by omega⟩
      subst hr
      have e1 : 2 * (m + 2 + r) - m - 1 = m + 3 + 2 * r := by omega
      have e2 : m + 2 + r - (1 + 1 * m) = r + 1 := by omega
      have e3 : 2 * (m + 2 + r) - (m + 1) - 1 = m + 2 + 2 * r := by omega
      rw [e1, e2, e3]
      ring

theorem obj_prefix_length (j_spacing : ℚ) (gnn : ℕ) (hg : 1 ≤ gnn)
    (st : ObjPointsState) (hst : st.geopoints.length = 4 * gnn) :
    ((List.range' 1 (gnn - 1)).foldl (objRing j_spacing gnn) st).geopoints.length
      = 4 * gnn * gnn := by
  rw [objRing_foldl_length j_spacing gnn (gnn - 1) st (le_refl _), hst]
  obtain ⟨s, hs⟩ : ∃ s, gnn = 1 + s := ⟨gnn - 1, by omega⟩
  subst hs
  have e1 : 1 + s - 1 = s := by omega
  have e2 : 2 * (1 + s) - s - 1 = s + 1 := by omega
  rw [e1, e2]
  ring

theorem append_pair_getElem_first (pfx : List GeoPoint) (a b : GeoPoint) :
    (pfx ++ [a, b])[(pfx ++ [a, b]).length - 2]? = some a := by
  have h2 : (pfx ++ [a, b]).length - 2 = pfx.length := by simp
  rw [h2, List.getElem?_append_right (le_refl _), Nat.sub_self]
  rfl

/-- C9: in the seam-duplicating topology (even `modelSize = 2*gnn`, `gnn ≥ 1`)
the north-pole lattice point (the second-to-last key) has latitude 90, the
dispatcher assigns it tile id `(0, 90)` (`floor(0), floor(90)`), the shared
tile-id enumerator only ever yields tile ids with latitude in `[-90, 89]`,
and therefore the texture sampling pass leaves the north-pole point's height
at its pre-seeded default `0.0` for every load oracle (any tile files
present) and every enumeration limit. -/
theorem obj_north_pole_never_sampled (gnn : ℕ) (hg : 1 ≤ gnn) (j_spacing : ℚ)
    (load : TileID → LoadOutcome) (tiles_limit : ℕ) :
    ((objCreateModelpoints (2 * gnn) j_spacing).1.geopoints)[
        (objCreateModelpoints (2 * gnn) j_spacing).1.geopoints.length - 2]?
      = some { lon := 0, lat := 90 } ∧
    find_tile_id { lon := 0, lat := 90 } = { lon := 0, lat := 90 } ∧
    (∀ count : ℕ, -90 ≤ (tileFromCount count).lat ∧ (tileFromCount count).lat ≤ 89) ∧
    createWithTexturePass (2 * gnn)
        ((objCreateModelpoints (2 * gnn) j_spacing).1.geopoints.enum) load tiles_limit
        ((objCreateModelpoints (2 * gnn) j_spacing).1.geopoints.length - 2)
      = some 0 := by
  have hg2 : 2 * gnn / 2 = gnn := by omega
  have hsplit : (objCreateModelpoints (2 * gnn) j_spacing).1.geopoints
      = ((List.range' 1 (2 * gnn / 2 - 1)).foldl (objRing j_spacing (2 * gnn / 2))
          { geopoints := (List.range (4 * (2 * gnn / 2))).map
              (fun i : ℕ => { lon := -180 + j_spacing * (i : ℚ), lat := 0 })
            texture_points := (List.range (4 * (2 * gnn / 2))).map (fun i => i) ++ [0] }).geopoints
        ++ [{ lon := 0, lat := 90 }, { lon := 0, lat := -90 }] := rfl
  rw [hg2] at hsplit
  have hP : ((List.range' 1 (gnn - 1)).foldl (objRing j_spacing gnn)
      { geopoints := (List.range (4 * gnn)).map
          (fun i : ℕ => { lon := -180 + j_spacing * (i : ℚ), lat := 0 })
        texture_points := (List.range (4 * gnn)).map (fun i => i) ++ [0] }).geopoints.length
      = 4 * gnn * gnn :=
    obj_prefix_length j_spacing gnn hg _ (by simp)
  have hlen_total : (objCreateModelpoints (2 * gnn) j_spacing).1.geopoints.length
      = 4 * gnn * gnn + 2 := by
    rw [hsplit, List.length_append, hP]
    rfl
  have hidx : (objCreateModelpoints (2 * gnn) j_spacing).1.geopoints.length - 2
      = 4 * gnn * gnn := by omega
  have hnp_elem : ((objCreateModelpoints (2 * gnn) j_spacing).1.geopoints)[
      (objCreateModelpoints (2 * gnn) j_spacing).1.geopoints.length - 2]?
      = some { lon := 0, lat := 90 } := by
    conv_lhs => rw [hsplit]
    exact append_pair_getElem_first _ _ _
  have hb : find_tile_id { lon := 0, lat := 90 } = ({ lon := 0, lat := 90 } : TileID) := by
    rw [find_tile_id]
    norm_num
  have hbounds : ∀ count : ℕ,
      -90 ≤ (tileFromCount count).lat ∧ (tileFromCount count).lat ≤ 89 := by
    intro count
    have := Nat.mod_lt count (show 0 < 180 by norm_num)
    simp only [tileFromCount]
    omega
  refine ⟨hnp_elem, hb, hbounds, ?_⟩
  have hpres := texturePass_preserve
    (createGeopointsTiles ((objCreateModelpoints (2 * gnn) j_spacing).1.geopoints.enum))
    load (tileSeq tiles_limit)
    (fun k => if k < 2 * (2 * gnn + 1) * (2 * gnn + 1) - 1 then some (0 : ℚ) else none)
    ((objCreateModelpoints (2 * gnn) j_spacing).1.geopoints.length - 2) ?_
  · refine hpres.trans ?_
    have hbound : 4 * gnn * gnn < 2 * (2 * gnn + 1) * (2 * gnn + 1) - 1 := by
      have h2 : 2 * (2 * gnn + 1) * (2 * gnn + 1) = 8 * gnn * gnn + 8 * gnn + 2 := by ring
      have h3 : 4 * gnn * gnn ≤ 8 * gnn * gnn :=
        Nat.mul_le_mul_right gnn (by omega)
      omega
    rw [hidx, if_pos hbound]
  · intro tid htid calcH hload kp hkp hk1
    have hmem := List.mem_filter.mp hkp
    have henum : ((objCreateModelpoints (2 * gnn) j_spacing).1.geopoints)[kp.1]?
        = some kp.2 := List.mem_enum_iff_getElem?.mp hmem.1
    rw [hk1] at henum
    have hnp : kp.2 = { lon := 0, lat := 90 } := by
      rw [hnp_elem] at henum
      exact (Option.some.inj henum).symm
    have htileid : find_tile_id kp.2 = tid := by simpa using hmem.2
    rw [hnp, hb] at htileid
    obtain ⟨c, _, hc⟩ := List.mem_map.mp htid
    have hlat := (hbounds c).2
    rw [hc, ← htileid] at hlat
    simp at hlat

/-- Witness for C9 at `gnn = 1` (modelSize 2), spacing 0, all tiles absent,
and the full `180*360` enumeration limit. -/
theorem obj_north_pole_never_sampled_witness :
    ((objCreateModelpoints (2 * 1) 0).1.geopoints)[
        (objCreateModelpoints (2 * 1) 0).1.geopoints.length - 2]?
      = some { lon := 0, lat := 90 } ∧
    find_tile_id { lon := 0, lat := 90 } = { lon := 0, lat := 90 } ∧
    (∀ count : ℕ, -90 ≤ (tileFromCount count).lat ∧ (tileFromCount count).lat ≤ 89) ∧
    createWithTexturePass (2 * 1)
        ((objCreateModelpoints (2 * 1) 0).1.geopoints.enum) (fun _ => .absent)
        (180 * 360)
        ((objCreateModelpoints (2 * 1) 0).1.geopoints.length - 2)
      = some 0 :=
  obj_north_pole_never_sampled 1 (le_refl 1) 0 (fun _ => .absent) (180 * 360)
